import Mathlib

/-!
The package `temporal` of maniartech/temporal: calendar facts and day boundaries.

A shallow embedding of `misc.go` (package `temporal`) together with the part of
Go's standard `time` package that its functions call.  The period offsets and
the week and month boundaries of the package, whose source file is not among
the sources, are modelled from the specification and the tests; each such
definition says so.

Conventions.

* Go `int` values are embedded as `Int`.  The calendar functions of `misc.go`
  only apply `%` with the non-zero constants 4, 100 and 400, compare, and add a
  few small constants, so none of their operations can wrap on 64-bit integers
  and none can panic.
* Go's `%` and `/` on `int` truncate towards zero; they are embedded as
  `Int.tmod` and `Int.tdiv`.
* A `time.Time` is embedded as its Unix second, its nanosecond and its
  location.  Go stores seconds in an `int64` and works on an unsigned count of
  seconds from a far-away epoch so that it never divides a negative number; the
  embedding uses seconds from 1 January of year 1 with floor division, which
  agrees with Go on every instant whose second count fits `int64` without
  wrap-around.  `Add` clamps the second count as Go's `addSec` does, and `Sub`
  saturates as Go's does.  Monotonic clock readings are left out: `SoD` reads only the
  calendar fields and the location of its argument.
* A `time.Location` is embedded as the offset in force before its first
  transition and the list of its transitions in increasing order of time,
  which is what `Location.lookup` consults.  Zone names, the lookup cache and
  the rule string that continues the last transition into the future are left
  out; the locations used below list the transitions around the dates they are
  used for.
* `time.Date`, `absDate`, `daysSinceEpoch`, `norm`, `Location.lookup`, `Add`,
  `Sub`, `AddDate`, `Weekday`, `After`, `Before` and `Equal` follow the sources
  of the standard library; `time.Date`
  resolves the zone offset as current Go releases do (a second lookup at the
  adjusted instant when the first offset does not fit its period).
-/

namespace Temporal

/-! ## Calendar facts (`misc.go`, lines 5-75) -/

/-- Go: `return year%4 == 0 && (year%100 != 0 || year%400 == 0)`. -/
def IsLeapYear (year : Int) : Bool :=
  year.tmod 4 == 0 && (year.tmod 100 != 0 || year.tmod 400 == 0)

/-- Go: `switch month` with `case 2`, `case 4, 6, 9, 11` and `default`. -/
def DaysInMonth (year month : Int) : Int :=
  if month = 2 then
    if IsLeapYear year then 29 else 28
  else if month = 4 ∨ month = 6 ∨ month = 9 ∨ month = 11 then 30
  else 31

/-- Go: `if IsLeapYear(year) { return 366 }; return 365`. -/
def DaysInYear (year : Int) : Int :=
  if IsLeapYear year then 366 else 365

/-- Go: `switch quarter` with `case 1`, `case 2`, `case 3` and `default`. -/
def DaysInQuarter (year quarter : Int) : Int :=
  if quarter = 1 then
    DaysInMonth year 1 + DaysInMonth year 2 + DaysInMonth year 3
  else if quarter = 2 then
    DaysInMonth year 4 + DaysInMonth year 5 + DaysInMonth year 6
  else if quarter = 3 then
    DaysInMonth year 7 + DaysInMonth year 8 + DaysInMonth year 9
  else
    DaysInMonth year 10 + DaysInMonth year 11 + DaysInMonth year 12

/-- How a call of a Go function ends: it returns a value or it panics. -/
inductive Outcome (α : Type) where
  | returned : α → Outcome α
  | panicked : Outcome α
  deriving DecidableEq, Repr

/-- A call `DaysInMonth(year, month)`.  The Go body is a `switch` over integer
constants whose every branch is a `return`; it has no `panic`, no indexing, no
division and no pointer, so every call returns. -/
def DaysInMonthCall (year month : Int) : Outcome Int :=
  Outcome.returned (DaysInMonth year month)

/-- A call `DaysInQuarter(year, quarter)`.  As for `DaysInMonth`, every branch
of the Go `switch` is a `return` of a sum of `DaysInMonth` calls. -/
def DaysInQuarterCall (year quarter : Int) : Outcome Int :=
  Outcome.returned (DaysInQuarter year quarter)


/-! ## Go's `time` package: constants, locations, instants -/

def secondsPerMinute : Int := 60
def secondsPerHour : Int := 60 * secondsPerMinute
def secondsPerDay : Int := 24 * secondsPerHour
def daysPer400Years : Int := 365 * 400 + 97
def daysPer100Years : Int := 365 * 100 + 24
def daysPer4Years : Int := 365 * 4 + 1

/-- Seconds from 1 January of year 1, 00:00:00 UTC, to the Unix epoch
(`time.unixToInternal`). -/
def unixToInternal : Int := (1969 * 365 + 1969 / 4 - 1969 / 100 + 1969 / 400) * secondsPerDay

/-- Durations are counts of nanoseconds (`time.Duration`). -/
def Nanosecond : Int := 1
def Second : Int := 1000000000 * Nanosecond
def Minute : Int := 60 * Second
def Hour : Int := 60 * Minute

/-- Start of the first zone period: `alpha` in `zoneinfo.go`. -/
def zoneAlpha : Int := -(2 ^ 63)

/-- End of the last zone period: `omega` in `zoneinfo.go`. -/
def zoneOmega : Int := 2 ^ 63 - 1

/-- A zone transition (`zoneTrans`): from Unix second `when` on, local time is
`offset` seconds east of UTC. -/
structure ZoneTrans where
  when : Int
  offset : Int
  deriving DecidableEq, Repr

/-- A `time.Location`: the offset before the first transition, and the
transitions in increasing order of `when`. -/
structure Location where
  first : Int
  tx : List ZoneTrans
  deriving DecidableEq, Repr

/-- The location `time.UTC`. -/
def UTC : Location := ⟨0, []⟩

/-- The location `time.FixedZone(name, offset)`. -/
def FixedZone (offset : Int) : Location := ⟨offset, []⟩

/-- The search of `Location.lookup` for the transition with the largest `when`
not after `sec`, as a scan of the ordered list: `offset` and `start` describe
the period entered last.  The result is the offset in force at `sec` and the
bounds `start ≤ sec < end` of its period. -/
def lookupFrom (sec offset start : Int) : List ZoneTrans → Int × Int × Int
  | [] => (offset, start, zoneOmega)
  | z :: rest =>
    if sec < z.when then (offset, start, z.when) else lookupFrom sec z.offset z.when rest

/-- Go: `(l *Location) lookup(sec)`, giving `(offset, start, end)`. -/
def Location.lookup (l : Location) (sec : Int) : Int × Int × Int :=
  lookupFrom sec l.first zoneAlpha l.tx

/-- The offset in force at Unix second `sec`. -/
def Location.offsetAt (l : Location) (sec : Int) : Int := (l.lookup sec).1

/-- A `time.Time`: Unix second, nanosecond within the second (0..999999999 in
every value Go builds), and location. -/
structure Time where
  sec : Int
  nsec : Int
  loc : Location
  deriving DecidableEq, Repr

/-- Go: `time.isLeap`. -/
def isLeap (year : Int) : Bool :=
  year.tmod 4 == 0 && (year.tmod 100 != 0 || year.tmod 400 == 0)

/-- Go: the table `daysBefore`; entry `m` counts the days of a non-leap year
before month `m + 1`. -/
def daysBefore : List Int :=
  [0, 31, 31 + 28, 31 + 28 + 31, 31 + 28 + 31 + 30, 31 + 28 + 31 + 30 + 31,
   31 + 28 + 31 + 30 + 31 + 30, 31 + 28 + 31 + 30 + 31 + 30 + 31,
   31 + 28 + 31 + 30 + 31 + 30 + 31 + 31, 31 + 28 + 31 + 30 + 31 + 30 + 31 + 31 + 30,
   31 + 28 + 31 + 30 + 31 + 30 + 31 + 31 + 30 + 31,
   31 + 28 + 31 + 30 + 31 + 30 + 31 + 31 + 30 + 31 + 30,
   31 + 28 + 31 + 30 + 31 + 30 + 31 + 31 + 30 + 31 + 30 + 31]

/-- Indexing of `daysBefore`. -/
def daysBeforeAt (i : Int) : Int := daysBefore.getD i.toNat 0

/-- Go: `time.norm(hi, lo, base)`, which brings `lo` into `[0, base)` and carries
into `hi`. -/
def norm (hi lo base : Int) : Int × Int :=
  let (hi, lo) :=
    if lo < 0 then
      let n := (-lo - 1).tdiv base + 1
      (hi - n, lo + n * base)
    else (hi, lo)
  if lo ≥ base then
    let n := lo.tdiv base
    (hi + n, lo - n * base)
  else (hi, lo)

/-- Go: `time.daysSinceEpoch(year)`, here the days from 1 January of year 1 to
1 January of `year`. -/
def daysSinceEpoch (year : Int) : Int :=
  let y := year - 1
  let n := y / 400
  let y := y - 400 * n
  let d := daysPer400Years * n
  let n := y / 100
  let y := y - 100 * n
  let d := d + daysPer100Years * n
  let n := y / 4
  let y := y - 4 * n
  let d := d + daysPer4Years * n
  let n := y
  d + 365 * n

/-- Second half of Go's `absDate`: month and day of month from the day of the
year (0-based) and the leap flag of the year. -/
def monthDay (leap : Bool) (yday : Int) : Int × Int :=
  let day := yday
  if leap = true ∧ day = 31 + 29 - 1 then (2, 29)
  else
    let day := if leap = true ∧ day > 31 + 29 - 1 then day - 1 else day
    let month := day / 31
    let e := daysBeforeAt (month + 1)
    if day ≥ e then (month + 1 + 1, day - e + 1)
    else (month + 1, day - daysBeforeAt month + 1)

/-- Go: `time.absDate(abs, true)`: year, month, day and day of year of the
second `abs` counted from 1 January of year 1. -/
def absDate (abs : Int) : Int × Int × Int × Int :=
  let d := abs / secondsPerDay
  let n := d / daysPer400Years
  let y := 400 * n
  let d := d - daysPer400Years * n
  let n := d / daysPer100Years
  let n := n - n / 4
  let y := y + 100 * n
  let d := d - daysPer100Years * n
  let n := d / daysPer4Years
  let y := y + 4 * n
  let d := d - daysPer4Years * n
  let n := d / 365
  let n := n - n / 4
  let y := y + n
  let d := d - 365 * n
  let year := y + 1
  let yday := d
  let md := monthDay (isLeap year) yday
  (year, md.1, md.2, yday)

/-- Go: `(t Time) abs()`: the wall-clock reading of `t` in its location, in
seconds from 1 January of year 1. -/
def Time.abs (t : Time) : Int :=
  t.sec + (t.loc.lookup t.sec).1 + unixToInternal

def Time.Year (t : Time) : Int := (absDate t.abs).1
def Time.Month (t : Time) : Int := (absDate t.abs).2.1
def Time.Day (t : Time) : Int := (absDate t.abs).2.2.1
def Time.Hour (t : Time) : Int := (t.abs % secondsPerDay) / secondsPerHour
def Time.Minute (t : Time) : Int := (t.abs % secondsPerHour) / secondsPerMinute
def Time.Second (t : Time) : Int := t.abs % secondsPerMinute
def Time.Nanosecond (t : Time) : Int := t.nsec
def Time.Location (t : Time) : Location := t.loc

/-- The last step of Go's `time.Date`: `unix` is the requested wall-clock
reading taken as if it were UTC; the offset found there is subtracted, and
when the outcome lies outside the period of that offset the offset is looked
up once more at the outcome. -/
def zoneAdjust (loc : Location) (unix : Int) : Int :=
  let (offset, start, stop) := loc.lookup unix
  if offset ≠ 0 then
    let utc := unix - offset
    let offset := if utc < start ∨ utc ≥ stop then (loc.lookup utc).1 else offset
    unix - offset
  else unix

/-- Go: `time.Date(year, month, day, hour, min, sec, nsec, loc)`. -/
def Date (year month day hour min sec nsec : Int) (loc : Location) : Time :=
  let m := month - 1
  let (year, m) := norm year m 12
  let month := m + 1
  let (sec, nsec) := norm sec nsec 1000000000
  let (min, sec) := norm min sec 60
  let (hour, min) := norm hour min 60
  let (day, hour) := norm day hour 24
  let d := daysSinceEpoch year
  let d := d + daysBeforeAt (month - 1)
  let d := if isLeap year = true ∧ month ≥ 3 then d + 1 else d
  let d := d + (day - 1)
  let abs := d * secondsPerDay
  let abs := abs + (hour * secondsPerHour + min * secondsPerMinute + sec)
  let unix := abs - unixToInternal
  ⟨zoneAdjust loc unix, nsec, loc⟩

/-- Two's-complement wrap of a value into the range of `int64`. -/
def wrapInt64 (x : Int) : Int := (x + 2 ^ 63) % 2 ^ 64 - 2 ^ 63

/-- Go: `(t *Time) addSec(d)` for a time without monotonic reading, on the Unix
second `sec`.  Go keeps the second count from 1 January of year 1 in an
`int64`; the sum is formed in `int64`, and when it overflowed the count is set
to `1<<63 - 1` or to `-(1<<63 - 1)`. -/
def addSec (sec d : Int) : Int :=
  let ext := sec + unixToInternal
  let sum := wrapInt64 (ext + d)
  let ext :=
    if decide (sum > ext) = decide (d > 0) then sum
    else if d > 0 then 2 ^ 63 - 1
    else -(2 ^ 63 - 1)
  ext - unixToInternal

/-- Go: `(t Time) Add(d Duration)`. -/
def Time.Add (t : Time) (d : Int) : Time :=
  let dsec := d.tdiv 1000000000
  let nsec := t.nsec + d.tmod 1000000000
  if nsec ≥ 1000000000 then ⟨addSec t.sec (dsec + 1), nsec - 1000000000, t.loc⟩
  else if nsec < 0 then ⟨addSec t.sec (dsec - 1), nsec + 1000000000, t.loc⟩
  else ⟨addSec t.sec dsec, nsec, t.loc⟩

/-- Go: `(t Time) After(u Time)`. -/
def Time.After (t u : Time) : Bool :=
  decide (t.sec > u.sec) || (decide (t.sec = u.sec) && decide (t.nsec > u.nsec))

/-- Go: `(t Time) AddDate(years, months, days)`. -/
def Time.AddDate (t : Time) (years months days : Int) : Time :=
  Date (t.Year + years) (t.Month + months) (t.Day + days) t.Hour t.Minute t.Second t.nsec
    t.Location

/-- The calendar and clock reading of an instant in its location:
year, month, day, hour, minute, second, nanosecond. -/
def Time.civil (t : Time) : Int × Int × Int × Int × Int × Int × Int :=
  (t.Year, t.Month, t.Day, t.Hour, t.Minute, t.Second, t.Nanosecond)

/-! ## Day boundaries (`misc.go`, lines 101-128) -/

/-- Go: `return time.Date(t.Year(), t.Month(), t.Day(), 0, 0, 0, 0, t.Location())`. -/
def SoD (t : Time) : Time :=
  Date t.Year t.Month t.Day 0 0 0 0 t.Location

/-- Go: `return SoD(t).Add(24*time.Hour - time.Nanosecond)`. -/
def EoD (t : Time) : Time :=
  (SoD t).Add (24 * Hour - Nanosecond)

/-! ## Constructors (`misc.go`, lines 77-99) -/

/-- Go: `return time.Date(year, time.Month(month), day, 0, 0, 0, 0, time.UTC)`. -/
def DateCreate (year month day : Int) : Time :=
  Date year month day 0 0 0 0 UTC

/-- Go: `return time.Date(0, 0, 0, hour, minute, second, 0, time.UTC)`. -/
def TimeCreate (hour minute second : Int) : Time :=
  Date 0 0 0 hour minute second 0 UTC

/-! ## Further functions of Go's `time` package -/

/-- Go: `(t Time) Before(u Time)`. -/
def Time.Before (t u : Time) : Bool :=
  decide (t.sec < u.sec) || (decide (t.sec = u.sec) && decide (t.nsec < u.nsec))

/-- Go: `(t Time) Equal(u Time)`: the same instant, whatever the locations. -/
def Time.Equal (t u : Time) : Bool :=
  decide (t.sec = u.sec) && decide (t.nsec = u.nsec)

/-- Smallest `time.Duration` (`minDuration`). -/
def minDuration : Int := -(2 ^ 63)

/-- Largest `time.Duration` (`maxDuration`). -/
def maxDuration : Int := 2 ^ 63 - 1

/-- Go: `(t Time) Sub(u Time)`.  The difference is formed in `int64` nanoseconds;
when it wrapped, adding it back to `u` does not give `t`, and the result
saturates. -/
def Time.Sub (t u : Time) : Int :=
  let d := wrapInt64 ((t.sec - u.sec) * Temporal.Second + (t.nsec - u.nsec))
  if (u.Add d).Equal t = true then d
  else if t.Before u = true then minDuration
  else maxDuration

/-- Go: `(t Time) Weekday()` through `absWeekday`; Sunday is 0, Monday is 1, and
1 January of year 1 is a Monday. -/
def Time.Weekday (t : Time) : Int :=
  ((t.abs + 1 * secondsPerDay) % (7 * secondsPerDay)) / secondsPerDay

/-! ## Functions of the package whose source file is not among the sources -/

/-- Modelled from the spec: `Days(n, instant)`, of which only the tests are
among the sources.  Spec 4.3: add `n` calendar days to the instant with the
date arithmetic of the host, keeping time of day and zone; `n == 0` fails
loudly.  The tests compare with `AddDate(0, 0, n)` and expect a panic for 0. -/
def Days (n : Int) (t : Time) : Outcome Time :=
  if n = 0 then Outcome.panicked else Outcome.returned (t.AddDate 0 0 n)

/-- Modelled from the spec: `Weeks(n, instant)`, of which only the tests are
among the sources.  Spec 4.3: as `Days`, weeks scaled by 7 days; the tests
compare with `AddDate(0, 0, n*7)` and expect a panic for 0. -/
def Weeks (n : Int) (t : Time) : Outcome Time :=
  if n = 0 then Outcome.panicked else Outcome.returned (t.AddDate 0 0 (n * 7))

/-- Modelled from the spec: `Months(n, instant)`, of which only the tests are
among the sources.  Spec 4.3: add `n` calendar months; the tests compare with
`AddDate(0, n, 0)` and expect a panic for 0. -/
def Months (n : Int) (t : Time) : Outcome Time :=
  if n = 0 then Outcome.panicked else Outcome.returned (t.AddDate 0 n 0)

/-- Modelled from the spec: `Years(n, instant)`, of which only the tests are
among the sources.  Spec 4.3: add `n` calendar years; the tests compare with
`AddDate(n, 0, 0)` and expect a panic for 0. -/
def Years (n : Int) (t : Time) : Outcome Time :=
  if n = 0 then Outcome.panicked else Outcome.returned (t.AddDate n 0 0)

/-- Modelled from the spec: `WeekStartOn(anchor, instant)`, of which only the
tests are among the sources.  Spec 4.2: the day offset to the most recent
occurrence of the anchor weekday is `((instant.weekday - anchor) + 7) mod 7`;
subtract that many days, then take the start of day. -/
def WeekStartOn (anchor : Int) (t : Time) : Time :=
  SoD (t.AddDate 0 0 (-((t.Weekday - anchor + 7).tmod 7)))

/-- Modelled from the spec: `WeekEndOn(anchor, instant)`, of which only the tests
are among the sources.  Spec 4.2: the end-on variant adds 6 days to the start of
the week, then takes the end of day. -/
def WeekEndOn (anchor : Int) (t : Time) : Time :=
  EoD ((WeekStartOn anchor t).AddDate 0 0 6)

/-- Modelled from the spec: `MonthStart(instant)`, of which only the tests are
among the sources.  Spec 4.2: day set to 1, time zeroed. -/
def MonthStart (t : Time) : Time :=
  Date t.Year t.Month 1 0 0 0 0 t.Location

/-- Modelled from the spec: `MonthEnd(instant)`, of which only the tests are among
the sources.  Spec 4.2: day set to `DaysInMonth(year, month)`, time set to the
values of the last instant of a day. -/
def MonthEnd (t : Time) : Time :=
  Date t.Year t.Month (DaysInMonth t.Year t.Month) 23 59 59 999999999 t.Location

/-! ## Auxiliary definitions for the statements -/

/-- Year and day of the year of day number `D` (days from 1 January of year 1):
the first half of `absDate`. -/
def yearOfDays (D : Int) : Int × Int :=
  let n := D / daysPer400Years
  let y := 400 * n
  let d := D - daysPer400Years * n
  let n := d / daysPer100Years
  let n := n - n / 4
  let y := y + 100 * n
  let d := d - daysPer100Years * n
  let n := d / daysPer4Years
  let y := y + 4 * n
  let d := d - daysPer4Years * n
  let n := d / 365
  let n := n - n / 4
  let y := y + n
  let d := d - 365 * n
  (y + 1, d)

/-- The Unix second whose reading in UTC is 00:00:00 on the calendar day that `t`
falls on in its own location.  It is the `unix` that `time.Date` computes inside
`SoD t` before the zone adjustment. -/
def Time.dayStartUTC (t : Time) : Int :=
  t.abs / secondsPerDay * secondsPerDay - unixToInternal

/-- The offset `o` that the location of `t` has at `t.dayStartUTC` is also its
offset `o` seconds earlier, at the instant that then reads 00:00:00 of the day of
`t` on the local clock.  It holds in every location without transitions, and on
every day whose midnight has no zone transition between these two instants. -/
def Time.MidnightPlain (t : Time) : Prop :=
  t.loc.offsetAt (t.dayStartUTC - t.loc.offsetAt t.dayStartUTC) = t.loc.offsetAt t.dayStartUTC

instance (t : Time) : Decidable t.MidnightPlain :=
  inferInstanceAs (Decidable (_ = _))

/-- America/New_York around 2022: Eastern Standard Time (UTC-5) until
2022-03-13 07:00:00 UTC, Eastern Daylight Time (UTC-4) until 2022-11-06 06:00:00
UTC, Eastern Standard Time afterwards. -/
def newYork2022 : Location :=
  ⟨-18000, [⟨1647154800, -14400⟩, ⟨1667714400, -18000⟩]⟩

/-- America/Sao_Paulo around 2018: UTC-3 until 2018-11-04 03:00:00 UTC (local
midnight, when clocks went to 01:00), UTC-2 until 2019-02-17 02:00:00 UTC, UTC-3
afterwards. -/
def saoPaulo2018 : Location :=
  ⟨-10800, [⟨1541300400, -7200⟩, ⟨1550368800, -10800⟩]⟩

/-- Noon of 2022-03-13 in New York, the 23-hour day on which daylight time began. -/
def nySpringNoon : Time := Date 2022 3 13 12 0 0 0 newYork2022

/-- 23:30 of 2022-11-06 in New York, the 25-hour day on which daylight time ended. -/
def nyAutumnLate : Time := Date 2022 11 6 23 30 0 0 newYork2022

/-- Noon of 2018-11-04 in Sao Paulo, the day whose midnight was skipped. -/
def spNoon : Time := Date 2018 11 4 12 0 0 0 saoPaulo2018

/-- The example of the docstrings: 2022-12-30 16:30:00 UTC. -/
def utcExample : Time := Date 2022 12 30 16 30 0 0 UTC

/-- The wall-clock reading `year-month-day hour:min:sec` taken as if it were UTC,
as a Unix second: the `unix` that `time.Date` computes before the zone
adjustment, for fields that are already in range. -/
def civilUnix (year month day hour min sec : Int) : Int :=
  (daysSinceEpoch year + daysBeforeAt (month - 1)
      + (if isLeap year = true ∧ month ≥ 3 then 1 else 0) + (day - 1)) * secondsPerDay
    + (hour * secondsPerHour + min * secondsPerMinute + sec) - unixToInternal

/-- The offset `o` that the location has at second `c` is also its offset `o`
seconds earlier: the wall-clock reading that `c` stands for exists in the
location with the offset that `time.Date` finds first. -/
def Location.PlainAt (l : Location) (c : Int) : Prop :=
  l.offsetAt (c - l.offsetAt c) = l.offsetAt c

instance (l : Location) (c : Int) : Decidable (l.PlainAt c) :=
  inferInstanceAs (Decidable (_ = _))

/-- The instant is one that Go can hold: its second count from 1 January of
year 1 fits `int64`. -/
def Time.InRange (t : Time) : Prop :=
  -(2 ^ 63) ≤ t.sec + unixToInternal ∧ t.sec + unixToInternal ≤ 2 ^ 63 - 1

instance (t : Time) : Decidable t.InRange :=
  inferInstanceAs (Decidable (_ ∧ _))

/-- The day of `t` ends within the instants Go can hold: the second count of
`SoD t` fits `int64`, and so does the count 86399 seconds later. -/
def Time.DayEndFits (t : Time) : Prop :=
  -(2 ^ 63) ≤ (SoD t).sec + unixToInternal ∧ (SoD t).sec + unixToInternal + 86399 ≤ 2 ^ 63 - 1

instance (t : Time) : Decidable t.DayEndFits :=
  inferInstanceAs (Decidable (_ ∧ _))

/-- No zone transition of the location takes effect after second `a` and up to
second `b`. -/
def Location.Quiet (l : Location) (a b : Int) : Prop :=
  ∀ z ∈ l.tx, z.when ≤ a ∨ b < z.when

instance (l : Location) (a b : Int) : Decidable (l.Quiet a b) :=
  inferInstanceAs (Decidable (∀ z ∈ l.tx, z.when ≤ a ∨ b < z.when))

/-- The UTC offsets that the location ever has. -/
def Location.offsets (l : Location) : List Int :=
  l.first :: l.tx.map (fun z => z.offset)

/-- No two UTC offsets of the location are more than 24 hours apart. -/
def Location.SpanWithinDay (l : Location) : Prop :=
  ∀ a ∈ l.offsets, ∀ b ∈ l.offsets, a - b ≤ 86400

instance (l : Location) : Decidable l.SpanWithinDay :=
  inferInstanceAs (Decidable (∀ a ∈ l.offsets, ∀ b ∈ l.offsets, a - b ≤ 86400))

/-- America/St_Johns around 2010: Newfoundland Standard Time (UTC-3:30) until
2010-03-14 03:31:00 UTC, Newfoundland Daylight Time (UTC-2:30) until 2010-11-07
02:31:00 UTC (00:01 local time, when clocks went back to 23:01 of 6 November),
standard time afterwards. -/
def stJohns2010 : Location :=
  ⟨-12600, [⟨1268537460, -9000⟩, ⟨1289097060, -12600⟩]⟩

/-- America/Asuncion around 2017: UTC-3 until 2017-03-26 03:00:00 UTC, UTC-4 until
2017-10-01 04:00:00 UTC (local midnight, when clocks went to 01:00), UTC-3
afterwards. -/
def asuncion2017 : Location :=
  ⟨-10800, [⟨1490497200, -14400⟩, ⟨1506830400, -10800⟩]⟩

/-- 00:00:30 of 2010-11-07 in St. John's, daylight time, half a minute before the
clocks went back. -/
def sjBefore : Time := ⟨1289097030, 0, stJohns2010⟩

/-- One minute after `sjBefore`: 23:01:30 of 2010-11-06 in St. John's, standard time. -/
def sjAfter : Time := ⟨1289097090, 0, stJohns2010⟩

/-- Noon of 2017-10-15 in Asuncion, in the month whose first midnight was skipped. -/
def asuncionNoon : Time := Date 2017 10 15 12 0 0 0 asuncion2017

/-- The instant of the week tests: 2024-01-01 11:02:10 UTC, a Monday. -/
def weekExample : Time := Date 2024 1 1 11 2 10 0 UTC

/-- Pacific/Kiritimati around 1994: UTC-10 until 1994-12-31 10:00:00 UTC (local
midnight), UTC+14 afterwards, so that 31 December 1994 did not exist there. -/
def kiritimati1994 : Location :=
  ⟨-36000, [⟨788868000, 50400⟩]⟩

/-- Noon of 1994-12-15 on Kiritimati, in the December that had 30 days. -/
def kiritimatiNoon : Time := Date 1994 12 15 12 0 0 0 kiritimati1994

/-- The instant of the leap-year month test: 2024-02-01 11:22:10 UTC. -/
def febExample : Time := Date 2024 2 1 11 22 10 0 UTC

/-- Midnight of 6 December of year 292277024627 in UTC, built by `DateCreate`:
the last calendar day that Go can hold, which ends at 15:30:07. -/
def lastDay : Time := DateCreate 292277024627 12 6

/-- Noon of 2022-07-13 in New York, a Wednesday far from any zone transition. -/
def nyJuly : Time := Date 2022 7 13 12 0 0 0 newYork2022

/-- Noon of 2018-11-06 in Sao Paulo, a Tuesday; the Sunday before it is
2018-11-04, the day whose midnight was skipped. -/
def spTuesday : Time := Date 2018 11 6 12 0 0 0 saoPaulo2018

/-- The last second, 01:59:59, of daylight time of 2022-11-06 in New York. -/
def nyBeforeBack : Time := ⟨1667714399, 0, newYork2022⟩

/-- One second after `nyBeforeBack`: 01:00:00 of 2022-11-06 in New York, standard
time. -/
def nyAfterBack : Time := ⟨1667714400, 0, newYork2022⟩

/-- The offsets that `time.Date` may settle on for the midnight of the day of `t`:
the offset in force at that midnight read as UTC, and the offset in force that
many seconds earlier. -/
def Time.midnightOffsets (t : Time) : List Int :=
  [t.loc.offsetAt t.dayStartUTC, t.loc.offsetAt (t.dayStartUTC - t.loc.offsetAt t.dayStartUTC)]

/-- From the midnight of the day of `t` to the midnight of the day of `u`, the
offsets that `time.Date` may settle on rise by no more than the days in between
are long: by at most 24 hours for each calendar day from the one to the other. -/
def Time.OffsetRiseBounded (t u : Time) : Prop :=
  ∀ a ∈ u.midnightOffsets, ∀ b ∈ t.midnightOffsets,
    a - b ≤ (u.abs / secondsPerDay - t.abs / secondsPerDay) * 86400

instance (t u : Time) : Decidable (t.OffsetRiseBounded u) :=
  inferInstanceAs (Decidable (∀ a ∈ u.midnightOffsets, ∀ b ∈ t.midnightOffsets,
    a - b ≤ (u.abs / secondsPerDay - t.abs / secondsPerDay) * 86400))

/-- The Unix second whose reading in UTC is 00:00:00 on the calendar day `n` days
after the day that `t` falls on in its own location. -/
def Time.midnightUTC (t : Time) (n : Int) : Int :=
  (t.abs / secondsPerDay + n) * secondsPerDay - unixToInternal

/-- The Unix second whose reading in UTC is the clock reading of `t` on the
calendar day `n` days after the day of `t`: the `unix` that `time.Date` computes
inside `t.AddDate(0, 0, n)` before the zone adjustment. -/
def Time.readingUTC (t : Time) (n : Int) : Int :=
  t.midnightUTC n + t.abs % secondsPerDay

/-- Modelled from the spec: the day offset of `WeekStartOn`, spec 4.2,
`((instant.weekday - anchor) + 7) mod 7`; `WeekStartOn anchor t` is
`SoD (t.AddDate 0 0 (-(weekOffset anchor t)))`. -/
def weekOffset (anchor : Int) (t : Time) : Int :=
  (t.Weekday - anchor + 7).tmod 7

/-- The week of `t` anchored on weekday `w` is free of zone transitions: none
takes effect from one day before the first midnight of the week, read as UTC, to
eight days after it; the offset at `t` is at most 24 hours either way; and these
nine days lie within the instants Go can hold. -/
def Time.QuietWeek (t : Time) (w : Int) : Prop :=
  t.loc.Quiet (t.midnightUTC (-(weekOffset w t)) - 86400)
      (t.midnightUTC (-(weekOffset w t)) + 8 * 86400) ∧
    (-86400 ≤ t.loc.offsetAt t.sec ∧ t.loc.offsetAt t.sec ≤ 86400) ∧
    (-(2 ^ 63) ≤ t.midnightUTC (-(weekOffset w t)) - 86400 + unixToInternal ∧
      t.midnightUTC (-(weekOffset w t)) + 8 * 86400 + unixToInternal ≤ 2 ^ 63 - 1)

instance (t : Time) (w : Int) : Decidable (t.QuietWeek w) :=
  inferInstanceAs (Decidable (_ ∧ _))

/-- Go (`TestWeek`, lines 188-189 of the tests): the value that the test expects
of `WeekStartOn(time.Monday)` at the instant `now`,
`time.Date(now.Year(), now.Month(), now.Day()-int(now.Weekday())+1, 0, 0, 0, 0, time.Local)`,
with the location of `now` for `time.Local`. -/
def weekStartExpected (now : Time) : Time :=
  Date now.Year now.Month (now.Day - now.Weekday + 1) 0 0 0 0 now.Location

/-- Go (`TestWeek`, lines 206-207 of the tests): the value that the test expects
of `WeekEndOn(time.Monday)` at the instant `now`,
`time.Date(now.Year(), now.Month(), now.Day()-int(now.Weekday())+7, 23, 59, 59, 999999999, time.Local)`. -/
def weekEndExpected (now : Time) : Time :=
  Date now.Year now.Month (now.Day - now.Weekday + 7) 23 59 59 999999999 now.Location

/-- A Sunday: 2024-01-07 11:02:10 UTC. -/
def sundayExample : Time := Date 2024 1 7 11 2 10 0 UTC

/-! ## Lemmas on the calendar facts -/

theorem tmod_eq_zero_iff_dvd (a b : Int) : a.tmod b = 0 ↔ b ∣ a :=
  Int.dvd_iff_tmod_eq_zero.symm

theorem IsLeapYear_iff (year : Int) :
    IsLeapYear year = true ↔ (4 ∣ year ∧ (¬ 100 ∣ year ∨ 400 ∣ year)) := by
  simp [IsLeapYear, tmod_eq_zero_iff_dvd]

theorem DaysInMonth_feb (year : Int) :
    DaysInMonth year 2 = if IsLeapYear year then 29 else 28 := by
  simp [DaysInMonth]

/-! ## Lemmas on the `time` model -/

theorem isLeap_iff (year : Int) :
    isLeap year = true ↔ (year % 4 = 0 ∧ (year % 100 ≠ 0 ∨ year % 400 = 0)) := by
  simp only [isLeap, Bool.and_eq_true, Bool.or_eq_true, beq_iff_eq, bne_iff_ne, ne_eq,
    ← Int.dvd_iff_tmod_eq_zero, Int.dvd_iff_emod_eq_zero]

theorem norm_of_range (hi lo base : Int) (h0 : 0 ≤ lo) (h1 : lo < base) :
    norm hi lo base = (hi, lo) := by
  have h0' : ¬ lo < 0 := by omega
  have h1' : ¬ lo ≥ base := by omega
  simp [norm, h0', h1']

theorem daysBeforeAt_vals :
    daysBeforeAt 0 = 0 ∧ daysBeforeAt 1 = 31 ∧ daysBeforeAt 2 = 59 ∧ daysBeforeAt 3 = 90 ∧
    daysBeforeAt 4 = 120 ∧ daysBeforeAt 5 = 151 ∧ daysBeforeAt 6 = 181 ∧ daysBeforeAt 7 = 212 ∧
    daysBeforeAt 8 = 243 ∧ daysBeforeAt 9 = 273 ∧ daysBeforeAt 10 = 304 ∧ daysBeforeAt 11 = 334 ∧
    daysBeforeAt 12 = 365 := by decide

/-- The table `daysBefore` as a chain of bounds: month index `k` (0-based) holds the
days `daysBeforeAt k ≤ day < daysBeforeAt (k + 1)`. -/
theorem monthEst_inv (day : Int) (h0 : 0 ≤ day) (h1 : day ≤ 364) :
    ∀ m d : Int,
      (if day ≥ daysBeforeAt (day / 31 + 1) then
          (day / 31 + 1 + 1, day - daysBeforeAt (day / 31 + 1) + 1)
        else (day / 31 + 1, day - daysBeforeAt (day / 31) + 1)) = (m, d) →
      1 ≤ m ∧ m ≤ 12 ∧ 1 ≤ d ∧ daysBeforeAt (m - 1) + (d - 1) = day ∧ (m ≥ 3 ↔ day ≥ 59) := by
  obtain ⟨v0, v1, v2, v3, v4, v5, v6, v7, v8, v9, v10, v11, v12⟩ := daysBeforeAt_vals
  intro m d h
  have hm : day / 31 = 0 ∨ day / 31 = 1 ∨ day / 31 = 2 ∨ day / 31 = 3 ∨ day / 31 = 4 ∨
      day / 31 = 5 ∨ day / 31 = 6 ∨ day / 31 = 7 ∨ day / 31 = 8 ∨ day / 31 = 9 ∨
      day / 31 = 10 ∨ day / 31 = 11 := by omega
  rcases hm with hm | hm | hm | hm | hm | hm | hm | hm | hm | hm | hm | hm <;>
    rw [hm] at h <;> norm_num [v0, v1, v2, v3, v4, v5, v6, v7, v8, v9, v10, v11, v12] at h <;>
    split_ifs at h <;> simp only [Prod.mk.injEq] at h <;> obtain ⟨rfl, rfl⟩ := h <;>
    norm_num [v0, v1, v2, v3, v4, v5, v6, v7, v8, v9, v10, v11, v12] <;> omega

theorem monthDay_inv (leap : Bool) (yday : Int) (h0 : 0 ≤ yday)
    (h1 : yday ≤ 365) (h2 : yday = 365 → leap = true) :
    1 ≤ (monthDay leap yday).1 ∧ (monthDay leap yday).1 ≤ 12 ∧ 1 ≤ (monthDay leap yday).2 ∧
    daysBeforeAt ((monthDay leap yday).1 - 1)
      + (if leap = true ∧ (monthDay leap yday).1 ≥ 3 then 1 else 0)
      + ((monthDay leap yday).2 - 1) = yday := by
  obtain ⟨-, v1, -⟩ := daysBeforeAt_vals
  generalize hmd : monthDay leap yday = md
  obtain ⟨m, d⟩ := md
  show 1 ≤ m ∧ m ≤ 12 ∧ 1 ≤ d ∧
    daysBeforeAt (m - 1) + (if leap = true ∧ m ≥ 3 then 1 else 0) + (d - 1) = yday
  unfold monthDay at hmd
  by_cases hA : leap = true ∧ yday = 31 + 29 - 1
  · rw [if_pos hA] at hmd
    simp only [Prod.mk.injEq] at hmd
    obtain ⟨rfl, rfl⟩ := hmd
    have hn : ¬ (leap = true ∧ (2 : Int) ≥ 3) := by omega
    rw [if_neg hn]
    norm_num [v1]
    omega
  · rw [if_neg hA] at hmd
    by_cases hB : leap = true ∧ yday > 31 + 29 - 1
    · simp only [if_pos hB] at hmd
      obtain ⟨hm1, hm2, hd, hsum, hge⟩ :=
        monthEst_inv (yday - 1) (by omega) (by omega) m d hmd
      have h3 : m ≥ 3 := hge.mpr (by omega)
      rw [if_pos ⟨hB.1, h3⟩]
      exact ⟨hm1, hm2, hd, by omega⟩
    · simp only [if_neg hB] at hmd
      have hy : yday ≤ 364 := by
        by_contra hc
        have h365 : yday = 365 := by omega
        exact hB ⟨h2 h365, by omega⟩
      obtain ⟨hm1, hm2, hd, hsum, hge⟩ := monthEst_inv yday h0 hy m d hmd
      refine ⟨hm1, hm2, hd, ?_⟩
      by_cases hl : leap = true
      · have hlt : yday < 59 := by
          by_contra hc
          by_cases he : yday = 59
          · exact hA ⟨hl, by omega⟩
          · exact hB ⟨hl, by omega⟩
        have h3 : ¬ (leap = true ∧ m ≥ 3) := by
          intro hc
          have := hge.mp hc.2
          omega
        rw [if_neg h3]
        omega
      · rw [if_neg (fun hc => hl hc.1)]
        omega

theorem consts_vals :
    secondsPerDay = 86400 ∧ secondsPerHour = 3600 ∧ secondsPerMinute = 60 ∧
    daysPer400Years = 146097 ∧ daysPer100Years = 36524 ∧ daysPer4Years = 1461 ∧
    unixToInternal = 62135596800 := by decide

theorem absDate_eq (abs : Int) :
    absDate abs =
      ((yearOfDays (abs / secondsPerDay)).1,
       (monthDay (isLeap (yearOfDays (abs / secondsPerDay)).1) (yearOfDays (abs / secondsPerDay)).2).1,
       (monthDay (isLeap (yearOfDays (abs / secondsPerDay)).1) (yearOfDays (abs / secondsPerDay)).2).2,
       (yearOfDays (abs / secondsPerDay)).2) := rfl

theorem yearOfDays_rel (D n q m r : Int) (hn : n = D / 146097)
    (hq : q = (D - 146097 * n) / 36524)
    (hm : m = (D - 146097 * n - 36524 * (q - q / 4)) / 1461)
    (hr : r = (D - 146097 * n - 36524 * (q - q / 4) - 1461 * m) / 365) :
    yearOfDays D = (400 * n + 100 * (q - q / 4) + 4 * m + (r - r / 4) + 1,
      D - 146097 * n - 36524 * (q - q / 4) - 1461 * m - 365 * (r - r / 4)) := by
  obtain ⟨-, -, -, c400, c100, c4, -⟩ := consts_vals
  subst hr hm hq hn
  simp only [yearOfDays, c400, c100, c4]

theorem daysSinceEpoch_cycles (n a m b : Int) (ha : 0 ≤ a ∧ a ≤ 3) (hm : 0 ≤ m ∧ m ≤ 24)
    (hb : 0 ≤ b ∧ b ≤ 3) :
    daysSinceEpoch (400 * n + 100 * a + 4 * m + b + 1)
      = 146097 * n + 36524 * a + 1461 * m + 365 * b := by
  obtain ⟨-, -, -, c400, c100, c4, -⟩ := consts_vals
  have e1 : (400 * n + 100 * a + 4 * m + b + 1 - 1) / 400 = n := by omega
  have e2 : (400 * n + 100 * a + 4 * m + b + 1 - 1 - 400 * n) / 100 = a := by omega
  have e3 : (400 * n + 100 * a + 4 * m + b + 1 - 1 - 400 * n - 100 * a) / 4 = m := by omega
  simp only [daysSinceEpoch, c400, c100, c4, e1, e2, e3]
  omega

theorem isLeap_cycles (n a m b : Int) (ha : 0 ≤ a ∧ a ≤ 3) (hm : 0 ≤ m ∧ m ≤ 24)
    (hb : 0 ≤ b ∧ b ≤ 3) :
    isLeap (400 * n + 100 * a + 4 * m + b + 1) = true ↔ (b = 3 ∧ (m ≠ 24 ∨ a = 3)) := by
  rw [isLeap_iff]
  constructor
  · intro h
    omega
  · intro h
    omega

theorem cycles_bounds (D n q m r : Int) (hn : n = D / 146097)
    (hq : q = (D - 146097 * n) / 36524)
    (hm : m = (D - 146097 * n - 36524 * (q - q / 4)) / 1461)
    (hr : r = (D - 146097 * n - 36524 * (q - q / 4) - 1461 * m) / 365) :
    (0 ≤ q - q / 4 ∧ q - q / 4 ≤ 3) ∧ (0 ≤ m ∧ m ≤ 24) ∧ (0 ≤ r - r / 4 ∧ r - r / 4 ≤ 3) ∧
    0 ≤ D - 146097 * n - 36524 * (q - q / 4) - 1461 * m - 365 * (r - r / 4) ∧
    D - 146097 * n - 36524 * (q - q / 4) - 1461 * m - 365 * (r - r / 4) ≤ 365 ∧
    (D - 146097 * n - 36524 * (q - q / 4) - 1461 * m - 365 * (r - r / 4) = 365 →
      r - r / 4 = 3 ∧ (m ≠ 24 ∨ q - q / 4 = 3)) := by
  have hd1 : 0 ≤ D - 146097 * n ∧ D - 146097 * n ≤ 146096 := by omega
  have hq5 : 0 ≤ q ∧ q ≤ 4 := by omega
  obtain ⟨a, ha⟩ : ∃ a, a = q - q / 4 := ⟨_, rfl⟩
  rw [← ha] at hm hr ⊢
  have ha3 : 0 ≤ a ∧ a ≤ 3 := by omega
  have hd2 : 0 ≤ D - 146097 * n - 36524 * a ∧ D - 146097 * n - 36524 * a ≤ 36524 ∧
      (a ≠ 3 → D - 146097 * n - 36524 * a ≤ 36523) := by omega
  have hm24 : 0 ≤ m ∧ m ≤ 24 := by omega
  have hd3 : 0 ≤ D - 146097 * n - 36524 * a - 1461 * m ∧
      D - 146097 * n - 36524 * a - 1461 * m ≤ 1460 ∧
      (m = 24 → a ≠ 3 → D - 146097 * n - 36524 * a - 1461 * m ≤ 1459) := by omega
  have hr5 : 0 ≤ r ∧ r ≤ 4 := by omega
  obtain ⟨b, hb⟩ : ∃ b, b = r - r / 4 := ⟨_, rfl⟩
  rw [← hb]
  have hb3 : 0 ≤ b ∧ b ≤ 3 := by omega
  refine ⟨ha3, hm24, hb3, ?_, ?_, ?_⟩
  · omega
  · omega
  · intro h
    constructor
    · omega
    · by_contra hc
      have h1 : m = 24 := by omega
      have h2 : a ≠ 3 := by omega
      have := hd3.2.2 h1 h2
      omega

theorem yearOfDays_inv (D : Int) :
    daysSinceEpoch (yearOfDays D).1 + (yearOfDays D).2 = D ∧
    0 ≤ (yearOfDays D).2 ∧ (yearOfDays D).2 ≤ 365 ∧
    ((yearOfDays D).2 = 365 → isLeap (yearOfDays D).1 = true) := by
  obtain ⟨n, hn⟩ : ∃ n, n = D / 146097 := ⟨_, rfl⟩
  obtain ⟨q, hq⟩ : ∃ q, q = (D - 146097 * n) / 36524 := ⟨_, rfl⟩
  obtain ⟨m, hm⟩ : ∃ m, m = (D - 146097 * n - 36524 * (q - q / 4)) / 1461 := ⟨_, rfl⟩
  obtain ⟨r, hr⟩ :
      ∃ r, r = (D - 146097 * n - 36524 * (q - q / 4) - 1461 * m) / 365 := ⟨_, rfl⟩
  obtain ⟨ha, hm24, hb, hy0, hy1, hy2⟩ := cycles_bounds D n q m r hn hq hm hr
  rw [yearOfDays_rel D n q m r hn hq hm hr]
  simp only [daysSinceEpoch_cycles n _ m _ ha hm24 hb, isLeap_cycles n _ m _ ha hm24 hb]
  refine ⟨by omega, hy0, hy1, hy2⟩

theorem absDate_inv (abs : Int) :
    1 ≤ (absDate abs).2.1 ∧ (absDate abs).2.1 ≤ 12 ∧ 1 ≤ (absDate abs).2.2.1 ∧
    daysSinceEpoch (absDate abs).1 + daysBeforeAt ((absDate abs).2.1 - 1)
      + (if isLeap (absDate abs).1 = true ∧ (absDate abs).2.1 ≥ 3 then 1 else 0)
      + ((absDate abs).2.2.1 - 1) = abs / secondsPerDay := by
  rw [absDate_eq]
  obtain ⟨hsum, h0, h1, h2⟩ := yearOfDays_inv (abs / secondsPerDay)
  obtain ⟨m1, m12, d1, hmd⟩ := monthDay_inv _ _ h0 h1 h2
  refine ⟨m1, m12, d1, ?_⟩
  simp only at hmd ⊢
  omega

theorem absDate_of_day_start (D : Int) (s : Int) (h0 : 0 ≤ s) (h1 : s < secondsPerDay) :
    absDate (D * secondsPerDay + s) = absDate (D * secondsPerDay) := by
  obtain ⟨c, -⟩ := consts_vals
  rw [absDate_eq, absDate_eq]
  have e1 : (D * secondsPerDay + s) / secondsPerDay = D := by rw [c] at h1 ⊢; omega
  have e2 : (D * secondsPerDay) / secondsPerDay = D := by rw [c]; omega
  rw [e1, e2]

theorem Date_midnight (year month day : Int) (loc : Location) (h1 : 1 ≤ month)
    (h12 : month ≤ 12) :
    Date year month day 0 0 0 0 loc
      = ⟨zoneAdjust loc ((daysSinceEpoch year + daysBeforeAt (month - 1)
            + (if isLeap year = true ∧ month ≥ 3 then 1 else 0) + (day - 1)) * secondsPerDay
            - unixToInternal), 0, loc⟩ := by
  have n1 : norm year (month - 1) 12 = (year, month - 1) :=
    norm_of_range _ _ _ (by omega) (by omega)
  have n2 : norm 0 0 1000000000 = (0, 0) := norm_of_range _ _ _ (by omega) (by omega)
  have n3 : norm 0 0 60 = (0, 0) := norm_of_range _ _ _ (by omega) (by omega)
  have n4 : norm day 0 24 = (day, 0) := norm_of_range _ _ _ (by omega) (by omega)
  unfold Date
  simp only [n1, n2, n3, n4]
  have e : month - 1 + 1 = month := by omega
  rw [e]
  congr 2
  split_ifs <;> ring

theorem zoneAdjust_of_plain (loc : Location) (c : Int)
    (h : loc.offsetAt (c - loc.offsetAt c) = loc.offsetAt c) :
    zoneAdjust loc c = c - loc.offsetAt c := by
  unfold zoneAdjust Location.offsetAt at *
  generalize loc.lookup c = r at h ⊢
  obtain ⟨o, st, en⟩ := r
  simp only at h ⊢
  by_cases ho : o = 0
  · simp [ho]
  · simp only [ne_eq, ho, not_false_eq_true, if_true]
    split
    · rw [h]
    · rfl

theorem SoD_eq (t : Time) :
    SoD t = ⟨zoneAdjust t.loc t.dayStartUTC, 0, t.loc⟩ := by
  obtain ⟨m1, m12, -, hsum⟩ := absDate_inv t.abs
  unfold SoD Time.Year Time.Month Time.Day Time.Location Time.dayStartUTC
  rw [Date_midnight _ _ _ _ m1 m12, hsum]


theorem absDate_congr (a b : Int) (h : a / secondsPerDay = b / secondsPerDay) :
    absDate a = absDate b := by
  rw [absDate_eq, absDate_eq, h]

theorem SoD_of_plain (t : Time) (h : t.MidnightPlain) :
    SoD t = ⟨t.dayStartUTC - t.loc.offsetAt t.dayStartUTC, 0, t.loc⟩ := by
  rw [SoD_eq, zoneAdjust_of_plain _ _ h]

/-- On a plain midnight the start of day reads 00:00:00 of the day of `t`. -/
theorem SoD_abs_of_plain (t : Time) (h : t.MidnightPlain) :
    (SoD t).abs = t.abs / secondsPerDay * secondsPerDay := by
  have h2 : (t.loc.lookup (t.dayStartUTC - t.loc.offsetAt t.dayStartUTC)).1
      = t.loc.offsetAt t.dayStartUTC := h
  rw [SoD_of_plain t h]
  show t.dayStartUTC - t.loc.offsetAt t.dayStartUTC
      + (t.loc.lookup (t.dayStartUTC - t.loc.offsetAt t.dayStartUTC)).1 + unixToInternal
    = t.abs / secondsPerDay * secondsPerDay
  rw [h2]
  unfold Time.dayStartUTC
  omega

theorem lookup_of_no_transitions (l : Location) (h : l.tx = []) (sec : Int) :
    l.lookup sec = (l.first, zoneAlpha, zoneOmega) := by
  simp [Location.lookup, h, lookupFrom]

theorem MidnightPlain_of_no_transitions (t : Time) (h : t.loc.tx = []) : t.MidnightPlain := by
  simp [Time.MidnightPlain, Location.offsetAt, lookup_of_no_transitions _ h]

/-! ## Day boundaries in locations without transitions -/

theorem zoneAdjust_of_no_transitions (l : Location) (h : l.tx = []) (c : Int) :
    zoneAdjust l c = c - l.first := by
  simp only [zoneAdjust, lookup_of_no_transitions l h]
  by_cases ho : l.first = 0
  · simp [ho]
  · have hz : ¬ (c - l.first < zoneAlpha ∨ c - l.first ≥ zoneOmega) ∨
        (c - l.first < zoneAlpha ∨ c - l.first ≥ zoneOmega) := by tauto
    rcases hz with hz | hz <;> simp [ho, hz]

theorem abs_of_no_transitions (t : Time) (h : t.loc.tx = []) :
    t.abs = t.sec + t.loc.first + unixToInternal := by
  simp [Time.abs, lookup_of_no_transitions _ h]

theorem SoD_of_no_transitions (t : Time) (h : t.loc.tx = []) :
    SoD t = ⟨t.abs / secondsPerDay * secondsPerDay - unixToInternal - t.loc.first, 0, t.loc⟩ := by
  rw [SoD_eq, zoneAdjust_of_no_transitions _ h]
  rfl

theorem duration_day_less_one :
    (24 * Hour - Nanosecond).tdiv 1000000000 = 86399 ∧
    (24 * Hour - Nanosecond).tmod 1000000000 = 999999999 := by decide

theorem addSec_clamp (sec d : Int) (h0 : -(2 ^ 63) ≤ sec + unixToInternal)
    (h1 : sec + unixToInternal ≤ 2 ^ 63 - 1) (hd0 : 0 ≤ d) (hd1 : d ≤ 2 ^ 62) :
    addSec sec d
      = if sec + unixToInternal + d ≤ 2 ^ 63 - 1 then sec + d
        else 2 ^ 63 - 1 - unixToInternal := by
  unfold addSec wrapInt64
  norm_num at h0 h1 hd1 ⊢
  by_cases hfit : sec + unixToInternal + d ≤ 9223372036854775807
  · rw [if_pos hfit]
    have e : (sec + unixToInternal + d + 9223372036854775808) % 18446744073709551616
        - 9223372036854775808 = sec + unixToInternal + d := by omega
    rw [e]
    by_cases hd : 0 < d
    · have c : (sec + unixToInternal < sec + unixToInternal + d ↔ 0 < d) := by
        constructor <;> intro _ <;> omega
      simp only [c, if_true]
      omega
    · have hdz : d = 0 := by omega
      subst hdz
      simp
  · rw [if_neg hfit]
    have e : (sec + unixToInternal + d + 9223372036854775808) % 18446744073709551616
        - 9223372036854775808 = sec + unixToInternal + d - 18446744073709551616 := by omega
    rw [e]
    have hd : 0 < d := by omega
    have c : ¬ (sec + unixToInternal < sec + unixToInternal + d - 18446744073709551616) := by
      omega
    simp only [c, hd, false_iff, not_true_eq_false, if_false, if_true]

theorem addSec_of_fits (sec d : Int) (h0 : -(2 ^ 63) ≤ sec + unixToInternal) (hd0 : 0 ≤ d)
    (hd1 : d ≤ 2 ^ 62) (h1 : sec + unixToInternal + d ≤ 2 ^ 63 - 1) :
    addSec sec d = sec + d := by
  rw [addSec_clamp sec d h0 (by omega) hd0 hd1, if_pos h1]

/-- In every location `EoD t` is `SoD t` with 86399 seconds added by `addSec` and
nanosecond 999999999. -/
theorem EoD_mk (t : Time) : EoD t = ⟨addSec (SoD t).sec 86399, 999999999, t.loc⟩ := by
  obtain ⟨e1, e2⟩ := duration_day_less_one
  rw [EoD, SoD_eq]
  simp [Time.Add, e1, e2]

theorem EoD_loc (t : Time) : (EoD t).loc = t.loc := by rw [EoD_mk]

theorem EoD_nsec (t : Time) : (EoD t).nsec = 999999999 := by rw [EoD_mk]

/-- Where the day of `t` ends within range, `EoD t` is 86399 seconds and 999999999
nanoseconds after `SoD t`. -/
theorem EoD_eq (t : Time) (hf : t.DayEndFits) :
    EoD t = ⟨(SoD t).sec + 86399, 999999999, t.loc⟩ := by
  rw [EoD_mk, addSec_of_fits _ 86399 hf.1 (by omega) (by norm_num) hf.2]

/-- Without transitions and with the day end in range, `SoD t` is not after `t`
and `t` is not after `EoD t`. -/
theorem SoD_le_le_EoD_of_no_transitions (t : Time) (h : t.loc.tx = [])
    (hf : t.DayEndFits) (hn0 : 0 ≤ t.nsec) (hn1 : t.nsec < 1000000000) :
    (SoD t).After t = false ∧ t.After (EoD t) = false := by
  obtain ⟨c1, -⟩ := consts_vals
  have ha := abs_of_no_transitions t h
  rw [EoD_eq t hf, SoD_of_no_transitions t h]
  simp only [Time.After, Bool.or_eq_false_iff, Bool.and_eq_false_iff, decide_eq_false_iff_not]
  rw [ha, c1]
  refine ⟨⟨by omega, by omega⟩, ⟨by omega, by omega⟩⟩

/-- Without transitions and with the day end in range, `EoD t` reads
23:59:59.999999999 on the day of `t`. -/
theorem EoD_fields_of_no_transitions (t : Time) (h : t.loc.tx = []) (hf : t.DayEndFits) :
    (EoD t).Year = t.Year ∧ (EoD t).Month = t.Month ∧ (EoD t).Day = t.Day ∧
    (EoD t).Hour = 23 ∧ (EoD t).Minute = 59 ∧ (EoD t).Second = 59 ∧
    (EoD t).Nanosecond = 999999999 ∧ (EoD t).Location = t.Location := by
  obtain ⟨c1, c2, c3, -⟩ := consts_vals
  have habs : (EoD t).abs = t.abs / secondsPerDay * secondsPerDay + 86399 := by
    rw [EoD_eq t hf, SoD_of_no_transitions t h]
    have hl : (⟨t.abs / secondsPerDay * secondsPerDay - unixToInternal - t.loc.first + 86399,
        999999999, t.loc⟩ : Time).loc.tx = [] := h
    rw [abs_of_no_transitions _ hl]
    show t.abs / secondsPerDay * secondsPerDay - unixToInternal - t.loc.first + 86399
      + t.loc.first + unixToInternal = _
    omega
  have hd : absDate (EoD t).abs = absDate t.abs := by
    apply absDate_congr
    rw [habs, c1]
    omega
  refine ⟨?_, ?_, ?_, ?_, ?_, ?_, ?_, ?_⟩
  · simp only [Time.Year, hd]
  · simp only [Time.Month, hd]
  · simp only [Time.Day, hd]
  · simp only [Time.Hour, habs, c1, c2]; omega
  · simp only [Time.Minute, habs, c1, c2, c3]; omega
  · simp only [Time.Second, habs, c1, c3]; omega
  · rw [EoD_mk]; rfl
  · rw [EoD_mk]; rfl



theorem Date_of_range (year month day hour min sec nsec : Int) (loc : Location)
    (hm : 1 ≤ month ∧ month ≤ 12) (hh : 0 ≤ hour ∧ hour < 24) (hmi : 0 ≤ min ∧ min < 60)
    (hs : 0 ≤ sec ∧ sec < 60) (hn : 0 ≤ nsec ∧ nsec < 1000000000) :
    Date year month day hour min sec nsec loc
      = ⟨zoneAdjust loc ((daysSinceEpoch year + daysBeforeAt (month - 1)
            + (if isLeap year = true ∧ month ≥ 3 then 1 else 0) + (day - 1)) * secondsPerDay
            + (hour * secondsPerHour + min * secondsPerMinute + sec) - unixToInternal),
          nsec, loc⟩ := by
  have n1 : norm year (month - 1) 12 = (year, month - 1) :=
    norm_of_range _ _ _ (by omega) (by omega)
  have n2 : norm sec nsec 1000000000 = (sec, nsec) := norm_of_range _ _ _ hn.1 hn.2
  have n3 : norm min sec 60 = (min, sec) := norm_of_range _ _ _ hs.1 hs.2
  have n4 : norm hour min 60 = (hour, min) := norm_of_range _ _ _ hmi.1 hmi.2
  have n5 : norm day hour 24 = (day, hour) := norm_of_range _ _ _ hh.1 hh.2
  unfold Date
  simp only [n1, n2, n3, n4, n5]
  have e : month - 1 + 1 = month := by omega
  rw [e]
  congr 2
  split_ifs <;> ring

theorem clock_of_abs (t : Time) :
    (0 ≤ t.Hour ∧ t.Hour < 24) ∧ (0 ≤ t.Minute ∧ t.Minute < 60) ∧
    (0 ≤ t.Second ∧ t.Second < 60) ∧
    t.Hour * secondsPerHour + t.Minute * secondsPerMinute + t.Second = t.abs % secondsPerDay := by
  obtain ⟨c1, c2, c3, -⟩ := consts_vals
  simp only [Time.Hour, Time.Minute, Time.Second, c1, c2, c3]
  refine ⟨⟨?_, ?_⟩, ⟨?_, ?_⟩, ⟨?_, ?_⟩, ?_⟩ <;> omega

/-- Without transitions, the next calendar day at the same clock reading is 86400
seconds later. -/
theorem AddDate_day_of_no_transitions (t : Time) (h : t.loc.tx = [])
    (hn0 : 0 ≤ t.nsec) (hn1 : t.nsec < 1000000000) :
    t.AddDate 0 0 1 = ⟨t.sec + 86400, t.nsec, t.loc⟩ := by
  obtain ⟨c1, -⟩ := consts_vals
  obtain ⟨m1, m12, -, hsum⟩ := absDate_inv t.abs
  obtain ⟨hh, hmi, hs, hclock⟩ := clock_of_abs t
  have ha := abs_of_no_transitions t h
  unfold Time.AddDate
  simp only [add_zero, Time.Location]
  rw [Date_of_range _ _ _ _ _ _ _ _ (show 1 ≤ t.Month ∧ t.Month ≤ 12 from ⟨m1, m12⟩) hh hmi hs
      ⟨hn0, hn1⟩,
    zoneAdjust_of_no_transitions _ h, hclock]
  unfold Time.Year Time.Month Time.Day
  have key : (daysSinceEpoch (absDate t.abs).1 + daysBeforeAt ((absDate t.abs).2.1 - 1)
        + (if isLeap (absDate t.abs).1 = true ∧ (absDate t.abs).2.1 ≥ 3 then 1 else 0)
        + ((absDate t.abs).2.2.1 + 1 - 1)) = t.abs / secondsPerDay + 1 := by omega
  rw [key]
  congr 1
  rw [c1] at *
  omega

/-- Without transitions and with the next midnight in range, one nanosecond after
`EoD t` the next calendar day starts. -/
theorem EoD_succ_of_no_transitions (t : Time) (h : t.loc.tx = []) (hf : t.DayEndFits)
    (hs : (SoD t).sec + unixToInternal + 86400 ≤ 2 ^ 63 - 1)
    (hn0 : 0 ≤ t.nsec) (hn1 : t.nsec < 1000000000) :
    (EoD t).Add Nanosecond = SoD (t.AddDate 0 0 1) := by
  obtain ⟨c1, -⟩ := consts_vals
  have ha := abs_of_no_transitions t h
  have hl : (⟨t.sec + 86400, t.nsec, t.loc⟩ : Time).loc.tx = [] := h
  have ha2 := abs_of_no_transitions _ hl
  have e1 : Int.tmod 1 1000000000 = 1 := by decide
  have e2 : Int.tdiv 1 1000000000 = 0 := by decide
  have hadd : (EoD t).Add Nanosecond = ⟨(SoD t).sec + 86400, 0, t.loc⟩ := by
    have h1 := addSec_of_fits ((SoD t).sec + 86399) 1 (by have := hf.1; omega) (by omega)
      (by norm_num) (by omega)
    rw [EoD_eq t hf]
    simp only [Time.Add, Nanosecond, e1, e2]
    norm_num
    rw [h1]
    omega
  rw [hadd, AddDate_day_of_no_transitions t h hn0 hn1, SoD_of_no_transitions _ hl,
    SoD_of_no_transitions t h, ha2]
  simp only [Time.mk.injEq, and_true]
  rw [ha, c1]
  omega

/-! ## Claims C1-C6: calendar facts -/

/-- C1: for every integer year, `IsLeapYear year` is true exactly when the year
is divisible by 4 and (not divisible by 100 or divisible by 400); 2024 and 2000
are leap years, 1900 and 2023 are not. -/
theorem C1_IsLeapYear_spec :
    (∀ year : Int,
      IsLeapYear year = true ↔ (4 ∣ year ∧ (¬ 100 ∣ year ∨ 400 ∣ year))) ∧
    IsLeapYear 2024 = true ∧ IsLeapYear 1900 = false ∧
    IsLeapYear 2000 = true ∧ IsLeapYear 2023 = false :=
  ⟨IsLeapYear_iff, by decide, by decide, by decide, by decide⟩

/-- C2: for every year and every month in 1..12, either the month is one of
1,3,5,7,8,10,12 and `DaysInMonth` is 31, or it is one of 4,6,9,11 and
`DaysInMonth` is 30, or it is 2 and `DaysInMonth` is 29 in a leap year and 28
otherwise; the twelve values for 2023 are 31,28,31,30,31,30,31,31,30,31,30,31. -/
theorem C2_DaysInMonth_spec (year month : Int) (h1 : 1 ≤ month) (h12 : month ≤ 12) :
    (((month = 1 ∨ month = 3 ∨ month = 5 ∨ month = 7 ∨ month = 8 ∨ month = 10 ∨ month = 12) ∧
        DaysInMonth year month = 31) ∨
     ((month = 4 ∨ month = 6 ∨ month = 9 ∨ month = 11) ∧ DaysInMonth year month = 30) ∨
     (month = 2 ∧ DaysInMonth year month = if IsLeapYear year then 29 else 28)) ∧
    [1, 2, 3, 4, 5, 6, 7, 8, 9, 10, 11, 12].map (DaysInMonth 2023)
      = [31, 28, 31, 30, 31, 30, 31, 31, 30, 31, 30, 31] := by
  refine ⟨?_, by decide⟩
  have hm : month = 1 ∨ month = 2 ∨ month = 3 ∨ month = 4 ∨ month = 5 ∨ month = 6 ∨
      month = 7 ∨ month = 8 ∨ month = 9 ∨ month = 10 ∨ month = 11 ∨ month = 12 := by omega
  rcases hm with rfl | rfl | rfl | rfl | rfl | rfl | rfl | rfl | rfl | rfl | rfl | rfl <;>
    simp [DaysInMonth]

/-- Witness for C2 at February 2024, where the value is 29. -/
theorem C2_DaysInMonth_spec_witness :
    DaysInMonth 2024 2 = 29 ∧
    ((((2 : Int) = 1 ∨ (2 : Int) = 3 ∨ (2 : Int) = 5 ∨ (2 : Int) = 7 ∨ (2 : Int) = 8 ∨
          (2 : Int) = 10 ∨ (2 : Int) = 12) ∧ DaysInMonth 2024 2 = 31) ∨
      (((2 : Int) = 4 ∨ (2 : Int) = 6 ∨ (2 : Int) = 9 ∨ (2 : Int) = 11) ∧
        DaysInMonth 2024 2 = 30) ∨
      ((2 : Int) = 2 ∧ DaysInMonth 2024 2 = if IsLeapYear 2024 then 29 else 28)) :=
  ⟨by decide, (C2_DaysInMonth_spec 2024 2 (by decide) (by decide)).1⟩

/-- C3: for every year, the twelve values `DaysInMonth year m`, m = 1..12, add up
to `DaysInYear year`. -/
theorem C3_months_sum_to_year (year : Int) :
    (([1, 2, 3, 4, 5, 6, 7, 8, 9, 10, 11, 12] : List Int).map (DaysInMonth year)).sum
      = DaysInYear year := by
  cases h : IsLeapYear year <;> simp [DaysInMonth, DaysInYear, h]

/-- C4: for every year and quarter q in 1..4, `DaysInQuarter year q` is the sum of
`DaysInMonth` over the months 3q-2, 3q-1 and 3q; quarter 1 has 91 days in a leap
year and 90 otherwise, quarter 2 has 91, quarters 3 and 4 have 92;
`DaysInQuarter 2022 1 = 90` and `DaysInQuarter 2024 1 = 91`. -/
theorem C4_DaysInQuarter_spec (year q : Int) (h1 : 1 ≤ q) (h4 : q ≤ 4) :
    DaysInQuarter year q
      = DaysInMonth year (3 * q - 2) + DaysInMonth year (3 * q - 1) + DaysInMonth year (3 * q) ∧
    (q = 1 → DaysInQuarter year q = if IsLeapYear year then 91 else 90) ∧
    (q = 2 → DaysInQuarter year q = 91) ∧
    (q = 3 → DaysInQuarter year q = 92) ∧
    (q = 4 → DaysInQuarter year q = 92) ∧
    DaysInQuarter 2022 1 = 90 ∧ DaysInQuarter 2024 1 = 91 := by
  have hq : q = 1 ∨ q = 2 ∨ q = 3 ∨ q = 4 := by omega
  refine ⟨?_, ?_, ?_, ?_, ?_, by decide, by decide⟩
  · rcases hq with rfl | rfl | rfl | rfl <;> simp [DaysInQuarter]
  · rintro rfl
    cases h : IsLeapYear year <;> simp [DaysInQuarter, DaysInMonth, h]
  · rintro rfl
    simp [DaysInQuarter, DaysInMonth]
  · rintro rfl
    simp [DaysInQuarter, DaysInMonth]
  · rintro rfl
    simp [DaysInQuarter, DaysInMonth]

/-- Witness for C4 at quarter 3 of 2024, which has 92 days. -/
theorem C4_DaysInQuarter_spec_witness :
    DaysInQuarter 2024 3 = DaysInMonth 2024 7 + DaysInMonth 2024 8 + DaysInMonth 2024 9 ∧
    DaysInQuarter 2024 3 = 92 :=
  ⟨(C4_DaysInQuarter_spec 2024 3 (by decide) (by decide)).1,
   (C4_DaysInQuarter_spec 2024 3 (by decide) (by decide)).2.2.2.1 rfl⟩

/-- C5: for every year and every quarter other than 1, 2 and 3 (0, negative
values and values above 4 included) the call `DaysInQuarter(year, quarter)`
returns, and what it returns is `DaysInQuarter year 4`, which is 92. -/
theorem C5_DaysInQuarter_fallback (year quarter : Int)
    (h1 : quarter ≠ 1) (h2 : quarter ≠ 2) (h3 : quarter ≠ 3) :
    DaysInQuarterCall year quarter = Outcome.returned (DaysInQuarter year 4) ∧
    DaysInQuarter year 4 = 92 := by
  simp [DaysInQuarterCall, DaysInQuarter, DaysInMonth, h1, h2, h3]

/-- Witness for C5 at quarter -7 of 2023. -/
theorem C5_DaysInQuarter_fallback_witness :
    DaysInQuarterCall 2023 (-7) = Outcome.returned (DaysInQuarter 2023 4) ∧
    DaysInQuarter 2023 4 = 92 :=
  C5_DaysInQuarter_fallback 2023 (-7) (by decide) (by decide) (by decide)

/-- C6 as stated fails: the calls `DaysInMonth(2023, 13)`, `DaysInMonth(2023, 0)`
and `DaysInMonth(2023, -1)` do not panic; each returns the day count 31 through
the `default` branch. -/
theorem C6_counterexample :
    DaysInMonthCall 2023 13 = Outcome.returned 31 ∧
    DaysInMonthCall 2023 0 = Outcome.returned 31 ∧
    DaysInMonthCall 2023 (-1) = Outcome.returned 31 ∧
    DaysInMonthCall 2023 13 ≠ Outcome.panicked := by
  decide

/-- C6 amended: for every year and every month outside 1..12 the call
`DaysInMonth(year, month)` does not panic; it returns 31. -/
theorem C6_DaysInMonth_out_of_range (year month : Int) (h : month < 1 ∨ 12 < month) :
    DaysInMonthCall year month = Outcome.returned 31 ∧
    DaysInMonthCall year month ≠ Outcome.panicked := by
  have h2 : month ≠ 2 := by omega
  have h4 : ¬ (month = 4 ∨ month = 6 ∨ month = 9 ∨ month = 11) := by omega
  simp [DaysInMonthCall, DaysInMonth, h2, h4]

/-- Witness for the amended C6 at month 14 of 2023. -/
theorem C6_DaysInMonth_out_of_range_witness :
    DaysInMonthCall 2023 14 = Outcome.returned 31 ∧
    DaysInMonthCall 2023 14 ≠ Outcome.panicked :=
  C6_DaysInMonth_out_of_range 2023 14 (by decide)

/-! ## Claims C7-C10: start and end of day -/

set_option maxRecDepth 4000

/-- C7 as stated fails: noon of 2018-11-04 in Sao Paulo is an instant of a day
whose midnight was skipped, and `SoD` of it reads 2018-11-03 23:00:00, a
different day with hour 23. -/
theorem C7_counterexample :
    spNoon = ⟨1541340000, 0, saoPaulo2018⟩ ∧
    spNoon.civil = (2018, 11, 4, 12, 0, 0, 0) ∧
    (SoD spNoon).civil = (2018, 11, 3, 23, 0, 0, 0) ∧
    ¬ ((SoD spNoon).Day = spNoon.Day ∧ (SoD spNoon).Hour = 0) :=
  ⟨by decide, by decide, by decide, by decide⟩

/-- C7 amended: for every instant `t`, `SoD t` has the location of `t` and
nanosecond 0; and whenever the midnight of the day of `t` is plain (the offset
that the location has at that midnight read as UTC is also its offset that many
seconds earlier), which is so in every location without transitions, `SoD t` has
the year, month and day of `t` and hour, minute and second 0. -/
theorem C7_SoD_fields (t : Time) :
    (SoD t).Location = t.Location ∧ (SoD t).Nanosecond = 0 ∧
    (t.loc.tx = [] → t.MidnightPlain) ∧
    (t.MidnightPlain →
      (SoD t).Year = t.Year ∧ (SoD t).Month = t.Month ∧ (SoD t).Day = t.Day ∧
      (SoD t).Hour = 0 ∧ (SoD t).Minute = 0 ∧ (SoD t).Second = 0) := by
  obtain ⟨c1, c2, c3, -⟩ := consts_vals
  refine ⟨?_, ?_, MidnightPlain_of_no_transitions t, ?_⟩
  · rw [SoD_eq]; rfl
  · rw [SoD_eq]; rfl
  · intro h
    have habs := SoD_abs_of_plain t h
    have hd : absDate (SoD t).abs = absDate t.abs := by
      apply absDate_congr
      rw [habs, c1]
      omega
    refine ⟨?_, ?_, ?_, ?_, ?_, ?_⟩
    · simp only [Time.Year, hd]
    · simp only [Time.Month, hd]
    · simp only [Time.Day, hd]
    · simp only [Time.Hour, habs, c1, c2]; omega
    · simp only [Time.Minute, habs, c1, c2, c3]; omega
    · simp only [Time.Second, habs, c1, c3]; omega

/-- Witness for the amended C7: the docstring example 2022-12-30 16:30:00 UTC,
whose start of day reads 2022-12-30 00:00:00.000000000 UTC.  The midnight of
2022-03-13 in New York is plain as well, the transition of that day being at
02:00 local time. -/
theorem C7_SoD_fields_witness :
    nySpringNoon.MidnightPlain ∧
    utcExample.MidnightPlain ∧
    utcExample.civil = (2022, 12, 30, 16, 30, 0, 0) ∧
    (SoD utcExample).civil = (2022, 12, 30, 0, 0, 0, 0) ∧
    ((SoD utcExample).Year = utcExample.Year ∧ (SoD utcExample).Month = utcExample.Month ∧
      (SoD utcExample).Day = utcExample.Day ∧ (SoD utcExample).Hour = 0 ∧
      (SoD utcExample).Minute = 0 ∧ (SoD utcExample).Second = 0) :=
  ⟨by decide, by decide, by decide, by decide, (C7_SoD_fields utcExample).2.2.2 (by decide)⟩

/-- C8 at 2022-11-06 23:30:00 in New York, a 25-hour day: `EoD` reads 22:59:59.999999999
of that day, so the instant is after its own end of day. -/
theorem C8_instant_after_EoD :
    nyAutumnLate = ⟨1667795400, 0, newYork2022⟩ ∧
    nyAutumnLate.civil = (2022, 11, 6, 23, 30, 0, 0) ∧
    (SoD nyAutumnLate).civil = (2022, 11, 6, 0, 0, 0, 0) ∧
    (EoD nyAutumnLate).civil = (2022, 11, 6, 22, 59, 59, 999999999) ∧
    nyAutumnLate.After (EoD nyAutumnLate) = true :=
  ⟨by decide, by decide, by decide, by decide, by decide⟩

/-- C9 at noon of 2022-03-13 in New York, a 23-hour day: `EoD` reads
2022-03-14 00:59:59.999999999, which is on the next calendar day. -/
theorem C9_EoD_on_next_day :
    nySpringNoon = ⟨1647187200, 0, newYork2022⟩ ∧
    nySpringNoon.civil = (2022, 3, 13, 12, 0, 0, 0) ∧
    (EoD nySpringNoon).civil = (2022, 3, 14, 0, 59, 59, 999999999) ∧
    (EoD nySpringNoon).Day ≠ nySpringNoon.Day :=
  ⟨by decide, by decide, by decide, by decide⟩

/-- C10 at noon of 2022-03-13 in New York: one nanosecond after `EoD` it is
2022-03-14 01:00:00, while the start of the next calendar day is 2022-03-14
00:00:00, one hour earlier. -/
theorem C10_EoD_not_next_SoD :
    ((EoD nySpringNoon).Add Nanosecond).civil = (2022, 3, 14, 1, 0, 0, 0) ∧
    (nySpringNoon.AddDate 0 0 1).civil = (2022, 3, 14, 12, 0, 0, 0) ∧
    (SoD (nySpringNoon.AddDate 0 0 1)).civil = (2022, 3, 14, 0, 0, 0, 0) ∧
    (EoD nySpringNoon).Add Nanosecond ≠ SoD (nySpringNoon.AddDate 0 0 1) :=
  ⟨by decide, by decide, by decide, by decide⟩

/-! ## Lemmas for claims C11-C20 -/

theorem SoD_nsec (t : Time) : (SoD t).nsec = 0 := by rw [SoD_eq]

theorem SoD_loc (t : Time) : (SoD t).loc = t.loc := by rw [SoD_eq]

/-- The carry of `norm` into `hi` does not depend on `hi`. -/
theorem norm_hi_shift (hi k lo base : Int) :
    norm (hi + k) lo base = ((norm hi lo base).1 + k, (norm hi lo base).2) := by
  unfold norm
  by_cases h1 : lo < 0
  · simp only [h1, if_true]
    split_ifs <;> simp
    all_goals omega
  · simp only [h1, if_false]
    split_ifs <;> simp
    all_goals omega

/-- For all arguments `TimeCreate` is 32 days before 1 January of year 0 at the
same clock reading. -/
theorem TimeCreate_eq (hour minute second : Int) :
    TimeCreate hour minute second
      = ⟨(Date 0 1 1 hour minute second 0 UTC).sec - 32 * 86400,
         (Date 0 1 1 hour minute second 0 UTC).nsec, UTC⟩ := by
  obtain ⟨v0, -, -, -, -, -, -, -, -, -, -, v11, -⟩ := daysBeforeAt_vals
  obtain ⟨c1, -⟩ := consts_vals
  have n1 : norm 0 (0 - 1) 12 = (-1, 11) := by decide
  have n2 : norm 0 (1 - 1) 12 = (0, 0) := by decide
  have l1 : isLeap (-1) = false := by decide
  have l2 : isLeap 0 = true := by decide
  have d1 : daysSinceEpoch (-1) = daysSinceEpoch 0 - 365 := by decide
  have hz : ∀ c, zoneAdjust UTC c = c := by
    intro c
    rw [zoneAdjust_of_no_transitions UTC rfl c]
    show c - 0 = c
    omega
  have hs : ∀ x, norm 1 x 24 = ((norm 0 x 24).1 + 1, (norm 0 x 24).2) := by
    intro x
    have h := norm_hi_shift 0 1 x 24
    rwa [zero_add] at h
  unfold TimeCreate Date
  simp only [n1, n2, hs, hz, l1, l2, d1, c1]
  norm_num [v0, v11]
  omega


/-- Days from 1 January of year 1 to 1 January of year `y + 1`, in closed form. -/
theorem DaysInYear_eq_diff (y : Int) :
    DaysInYear y = (365 * y + y / 4 - y / 100 + y / 400)
      - (365 * (y - 1) + (y - 1) / 4 - (y - 1) / 100 + (y - 1) / 400) := by
  have h := IsLeapYear_iff y
  unfold DaysInYear
  by_cases hl : IsLeapYear y = true
  · rw [if_pos hl]
    have h2 := h.mp hl
    omega
  · rw [if_neg hl]
    have h2 : ¬ (4 ∣ y ∧ (¬ 100 ∣ y ∨ 400 ∣ y)) := fun hc => hl (h.mpr hc)
    omega

theorem sum_DaysInYear (y : Int) (n : Nat) :
    ((List.range n).map (fun k : Nat => DaysInYear (y + k))).sum
      = (365 * (y + n - 1) + (y + n - 1) / 4 - (y + n - 1) / 100 + (y + n - 1) / 400)
        - (365 * (y - 1) + (y - 1) / 4 - (y - 1) / 100 + (y - 1) / 400) := by
  induction n with
  | zero => simp
  | succ n ih =>
    rw [List.range_succ, List.map_append, List.sum_append, ih, List.map_singleton,
      List.sum_singleton, DaysInYear_eq_diff]
    push_cast
    have e : y + (n + 1 : Int) - 1 = y + n := by omega
    rw [e]
    omega

theorem count_leap_years (y : Int) (n : Nat) :
    (((List.range n).countP (fun k : Nat => IsLeapYear (y + k)) : Nat) : Int)
      = ((y + n - 1) / 4 - (y + n - 1) / 100 + (y + n - 1) / 400)
        - ((y - 1) / 4 - (y - 1) / 100 + (y - 1) / 400) := by
  induction n with
  | zero => simp
  | succ n ih =>
    rw [List.range_succ, List.countP_append]
    push_cast
    rw [ih]
    have hd := DaysInYear_eq_diff (y + n)
    have e : y + (n + 1 : Int) - 1 = y + n := by omega
    rw [e]
    unfold DaysInYear at hd
    by_cases hl : IsLeapYear (y + n) = true
    · rw [if_pos hl] at hd
      simp only [List.countP_cons, List.countP_nil, hl, if_true]
      push_cast
      omega
    · rw [if_neg hl] at hd
      simp only [List.countP_cons, List.countP_nil, hl]
      push_cast
      omega

/-! ## Claims C11-C14, C17, C18 -/

set_option maxRecDepth 8000

/-- C11 as stated fails on the last calendar day that Go can hold:
`DateCreate(292277024627, 12, 6)` is midnight of that day, 55807 seconds before
the largest second count of `int64`; `Add` stops there, so `EoD` reads
15:30:07.999999999 and the duration from `SoD` to `EoD` is 55807999999999 ns. -/
theorem C11_counterexample :
    lastDay.civil = (292277024627, 12, 6, 0, 0, 0, 0) ∧
    SoD lastDay = lastDay ∧
    lastDay.InRange ∧
    lastDay.sec + unixToInternal + 55807 = 2 ^ 63 - 1 ∧
    (EoD lastDay).civil = (292277024627, 12, 6, 15, 30, 7, 999999999) ∧
    (EoD lastDay).Sub (SoD lastDay) = 55807999999999 ∧
    (EoD lastDay).Sub (SoD lastDay) ≠ 24 * Hour - Nanosecond :=
  ⟨by decide, by decide, by decide, by decide, by decide, by decide, by decide⟩

/-- C11 amended: for every instant `t`, `EoD t` has the location of `t`; whenever
the day of `t` ends within the instants Go can hold (the second count of `SoD t`
and the count 86399 seconds later fit `int64`), `EoD(t).Sub(SoD(t))` is 24 hours
less one nanosecond, 86399999999999 ns; and whenever `SoD t` fits but the count
86399 seconds later does not, the duration is shorter. -/
theorem C11_EoD_minus_SoD (t : Time) :
    (EoD t).Location = t.Location ∧
    (t.DayEndFits →
      (EoD t).Sub (SoD t) = 24 * Hour - Nanosecond ∧
      (EoD t).Sub (SoD t) = 86399999999999) ∧
    ((SoD t).InRange → ¬ t.DayEndFits → (EoD t).Sub (SoD t) < 24 * Hour - Nanosecond) := by
  have hd : (24 * Hour - Nanosecond : Int) = 86399999999999 := by decide
  obtain ⟨c1, -, -, -, -, -, cu⟩ := consts_vals
  refine ⟨EoD_loc t, ?_, ?_⟩
  · intro hf
    have hw : wrapInt64 86399999999999 = 86399999999999 := by decide
    have hsub : (EoD t).Sub (SoD t) = 86399999999999 := by
      have he : EoD t = (SoD t).Add 86399999999999 := by rw [EoD, hd]
      have hdiff : ((EoD t).sec - (SoD t).sec) * Temporal.Second + ((EoD t).nsec - (SoD t).nsec)
          = 86399999999999 := by
        rw [EoD_eq t hf, SoD_nsec]
        simp only [Second, Nanosecond]
        omega
      unfold Time.Sub
      simp only [hdiff, hw]
      rw [← he]
      simp [Time.Equal]
    exact ⟨by rw [hsub, hd], hsub⟩
  · intro hr hnf
    obtain ⟨h0, h1⟩ := hr
    have hnf2 : ¬ ((SoD t).sec + unixToInternal + 86399 ≤ 2 ^ 63 - 1) := fun hc => hnf ⟨h0, hc⟩
    have hE : EoD t = ⟨2 ^ 63 - 1 - unixToInternal, 999999999, t.loc⟩ := by
      rw [EoD_mk, addSec_clamp _ 86399 h0 h1 (by omega) (by norm_num), if_neg hnf2]
    obtain ⟨δ, hδ⟩ : ∃ δ, δ = 2 ^ 63 - 1 - unixToInternal - (SoD t).sec := ⟨_, rfl⟩
    have hδ0 : 0 ≤ δ := by omega
    have hδ1 : δ ≤ 86398 := by
      norm_num at hnf2 ⊢
      omega
    have hdiff : ((EoD t).sec - (SoD t).sec) * Temporal.Second + ((EoD t).nsec - (SoD t).nsec)
        = δ * 1000000000 + 999999999 := by
      rw [hE, SoD_nsec, hδ]
      simp only [Second, Nanosecond]
      omega
    have hw : wrapInt64 (δ * 1000000000 + 999999999) = δ * 1000000000 + 999999999 := by
      unfold wrapInt64
      norm_num
      omega
    have e1 : (δ * 1000000000 + 999999999).tdiv 1000000000 = δ := by
      rw [Int.tdiv_eq_ediv (by omega) (by omega)]
      omega
    have e2 : (δ * 1000000000 + 999999999).tmod 1000000000 = 999999999 := by
      rw [Int.tmod_eq_emod (by omega) (by omega)]
      omega
    have hadd : (SoD t).Add (δ * 1000000000 + 999999999) = EoD t := by
      have hs := addSec_of_fits (SoD t).sec δ h0 hδ0 (by omega) (by rw [hδ]; omega)
      rw [hE]
      simp only [Time.Add, e1, e2, SoD_nsec, SoD_loc]
      norm_num
      rw [hs, hδ]
      omega
    have hsub : (EoD t).Sub (SoD t) = δ * 1000000000 + 999999999 := by
      unfold Time.Sub
      simp only [hdiff, hw, hadd]
      simp [Time.Equal]
    rw [hsub, hd]
    omega

/-- Witness for the amended C11: the docstring example 2022-12-30 16:30:00 UTC,
whose day ends within range. -/
theorem C11_EoD_minus_SoD_witness :
    utcExample.DayEndFits ∧
    (EoD utcExample).Sub (SoD utcExample) = 86399999999999 ∧
    (SoD lastDay).InRange ∧ ¬ lastDay.DayEndFits ∧
    (EoD lastDay).Sub (SoD lastDay) < 24 * Hour - Nanosecond :=
  ⟨by decide, ((C11_EoD_minus_SoD utcExample).2.1 (by decide)).2, by decide, by decide,
   (C11_EoD_minus_SoD lastDay).2.2 (by decide) (by decide)⟩

/-- C12 on the code: for every hour, minute and second `TimeCreate` is the
instant 32 days before `time.Date(0, 1, 1, hour, minute, second, 0, time.UTC)`,
so the two are never equal; `TimeCreate(12, 30, 0)` reads 30 November of year -1,
12:30:00 UTC, where the docstring promises 1 January of year 0. -/
theorem C12_TimeCreate_is_november_30 :
    (∀ hour minute second : Int,
      TimeCreate hour minute second
        = ⟨(Date 0 1 1 hour minute second 0 UTC).sec - 32 * 86400,
           (Date 0 1 1 hour minute second 0 UTC).nsec, UTC⟩) ∧
    (∀ hour minute second : Int,
      TimeCreate hour minute second ≠ Date 0 1 1 hour minute second 0 UTC) ∧
    (TimeCreate 12 30 0).civil = (-1, 11, 30, 12, 30, 0, 0) ∧
    (Date 0 1 1 12 30 0 0 UTC).civil = (0, 1, 1, 12, 30, 0, 0) := by
  refine ⟨TimeCreate_eq, ?_, by decide, by decide⟩
  intro hour minute second h
  have h2 := congrArg Time.sec h
  rw [TimeCreate_eq] at h2
  simp only at h2
  omega

/-- C13: for every year `DaysInYear` is 366 when `IsLeapYear` holds and 365
otherwise, hence never another value; `DaysInYear 2022 = 365`. -/
theorem C13_DaysInYear_spec :
    (∀ year : Int, DaysInYear year = if IsLeapYear year then 366 else 365) ∧
    (∀ year : Int, DaysInYear year = 365 ∨ DaysInYear year = 366) ∧
    (∀ year : Int, (DaysInYear year = 366 ↔ IsLeapYear year = true)) ∧
    DaysInYear 2022 = 365 := by
  refine ⟨fun year => rfl, ?_, ?_, by decide⟩
  · intro year
    cases h : IsLeapYear year <;> simp [DaysInYear, h]
  · intro year
    cases h : IsLeapYear year <;> simp [DaysInYear, h]

/-- C14: for every instant `t` the calls `Days(0, t)`, `Weeks(0, t)`,
`Months(0, t)` and `Years(0, t)` panic, so none returns `t`; for every `n ≠ 0`
the four calls return, with the value of the matching `AddDate`. -/
theorem C14_offsets_panic_on_zero (t : Time) :
    (Days 0 t = Outcome.panicked ∧ Weeks 0 t = Outcome.panicked ∧
      Months 0 t = Outcome.panicked ∧ Years 0 t = Outcome.panicked) ∧
    (Days 0 t ≠ Outcome.returned t ∧ Weeks 0 t ≠ Outcome.returned t ∧
      Months 0 t ≠ Outcome.returned t ∧ Years 0 t ≠ Outcome.returned t) ∧
    (∀ n : Int, n ≠ 0 →
      (Days n t ≠ Outcome.panicked ∧ Weeks n t ≠ Outcome.panicked ∧
        Months n t ≠ Outcome.panicked ∧ Years n t ≠ Outcome.panicked) ∧
      Days n t = Outcome.returned (t.AddDate 0 0 n) ∧
      Weeks n t = Outcome.returned (t.AddDate 0 0 (n * 7)) ∧
      Months n t = Outcome.returned (t.AddDate 0 n 0) ∧
      Years n t = Outcome.returned (t.AddDate n 0 0)) := by
  refine ⟨?_, ?_, ?_⟩
  · simp [Days, Weeks, Months, Years]
  · simp [Days, Weeks, Months, Years]
  · intro n hn
    simp [Days, Weeks, Months, Years, hn]

/-- Witness for C14: three years after 2022-12-30 16:30:00 UTC. -/
theorem C14_offsets_panic_on_zero_witness :
    Years 3 utcExample = Outcome.returned (utcExample.AddDate 3 0 0) ∧
    Years 3 utcExample ≠ Outcome.panicked ∧
    Years 0 utcExample = Outcome.panicked :=
  ⟨((C14_offsets_panic_on_zero utcExample).2.2 3 (by decide)).2.2.2.2,
   ((C14_offsets_panic_on_zero utcExample).2.2 3 (by decide)).1.2.2.2,
   (C14_offsets_panic_on_zero utcExample).1.2.2.2⟩

/-- C17: for every year the four values `DaysInQuarter year q`, q = 1..4, add up
to `DaysInYear year`. -/
theorem C17_quarters_sum_to_year (year : Int) :
    DaysInQuarter year 1 + DaysInQuarter year 2 + DaysInQuarter year 3 + DaysInQuarter year 4
      = DaysInYear year := by
  cases h : IsLeapYear year <;> simp [DaysInQuarter, DaysInMonth, DaysInYear, h]

/-- C18: for every integer year `y`, negative ones included,
`IsLeapYear (y + 400) = IsLeapYear y`, the values `DaysInYear (y + k)` for
k = 0..399 add up to 146097, and exactly 97 of these 400 years are leap years. -/
theorem C18_four_hundred_years :
    (∀ y : Int, IsLeapYear (y + 400) = IsLeapYear y) ∧
    (∀ y : Int, ((List.range 400).map (fun k : Nat => DaysInYear (y + k))).sum = 146097) ∧
    (∀ y : Int, (List.range 400).countP (fun k : Nat => IsLeapYear (y + k)) = 97) := by
  refine ⟨?_, ?_, ?_⟩
  · intro y
    rw [Bool.eq_iff_iff, IsLeapYear_iff, IsLeapYear_iff]
    constructor <;> intro h <;> omega
  · intro y
    rw [sum_DaysInYear]
    push_cast
    omega
  · intro y
    have h := count_leap_years y 400
    push_cast at h
    omega


/-! ## Lemmas on `SoD` and `EoD` for C19 and C20 -/

/-- In every location, `SoD` depends on the location and the day number only. -/
theorem SoD_congr (t u : Time) (hl : t.loc = u.loc)
    (hd : t.abs / secondsPerDay = u.abs / secondsPerDay) : SoD t = SoD u := by
  rw [SoD_eq, SoD_eq]
  unfold Time.dayStartUTC
  rw [hl, hd]

theorem EoD_congr (t u : Time) (hl : t.loc = u.loc)
    (hd : t.abs / secondsPerDay = u.abs / secondsPerDay) : EoD t = EoD u := by
  rw [EoD, EoD, SoD_congr t u hl hd]

theorem abs_SoD_of_no_transitions (t : Time) (h : t.loc.tx = []) :
    (SoD t).abs = t.abs / secondsPerDay * secondsPerDay :=
  SoD_abs_of_plain t (MidnightPlain_of_no_transitions t h)

theorem abs_EoD_of_no_transitions (t : Time) (h : t.loc.tx = []) (hf : t.DayEndFits) :
    (EoD t).abs = t.abs / secondsPerDay * secondsPerDay + 86399 := by
  have hl : (EoD t).loc.tx = [] := by rw [EoD_loc]; exact h
  have hs : (SoD t).loc.tx = [] := by rw [SoD_loc]; exact h
  have h1 := abs_of_no_transitions (EoD t) hl
  have h2 := abs_of_no_transitions (SoD t) hs
  have h3 := abs_SoD_of_no_transitions t h
  have e1 : (EoD t).sec = (SoD t).sec + 86399 := by rw [EoD_eq t hf]
  have e2 : (EoD t).loc = (SoD t).loc := by rw [EoD_loc, SoD_loc]
  rw [h1, e1, e2, ← h3, h2]
  omega

/-- Without transitions and with the day end in range, `SoD` and `EoD` are
idempotent and absorb each other. -/
theorem SoD_EoD_idempotent_of_no_transitions (t : Time) (h : t.loc.tx = [])
    (hf : t.DayEndFits) :
    SoD (SoD t) = SoD t ∧ EoD (EoD t) = EoD t ∧ SoD (EoD t) = SoD t ∧ EoD (SoD t) = EoD t := by
  obtain ⟨c1, -⟩ := consts_vals
  have hS : (SoD t).abs / secondsPerDay = t.abs / secondsPerDay := by
    rw [abs_SoD_of_no_transitions t h, c1]; omega
  have hE : (EoD t).abs / secondsPerDay = t.abs / secondsPerDay := by
    rw [abs_EoD_of_no_transitions t h hf, c1]; omega
  have lS : (SoD t).loc = t.loc := SoD_loc t
  have lE : (EoD t).loc = t.loc := EoD_loc t
  exact ⟨SoD_congr _ _ lS hS, EoD_congr _ _ lE hE, SoD_congr _ _ lE hE, EoD_congr _ _ lS hS⟩

/-- The offset that `lookupFrom` finds is the starting offset or that of a
transition of the list. -/
theorem lookupFrom_offset_mem (sec : Int) (tx : List ZoneTrans) (offset start : Int) :
    (lookupFrom sec offset start tx).1 ∈ offset :: tx.map (fun z => z.offset) := by
  induction tx generalizing offset start with
  | nil => simp [lookupFrom]
  | cons z rest ih =>
    unfold lookupFrom
    by_cases h : sec < z.when
    · simp [h]
    · simp only [h, if_false]
      have := ih z.offset z.when
      simp only [List.map_cons, List.mem_cons] at this ⊢
      right
      exact this

theorem offsetAt_mem (l : Location) (sec : Int) : l.offsetAt sec ∈ l.offsets :=
  lookupFrom_offset_mem sec l.tx l.first zoneAlpha

/-- With no transition after `a` and up to `b`, the lookup finds at every second
from `a` to `b` the offset it finds at `a`. -/
theorem lookupFrom_quiet (a b s : Int) (h1 : a ≤ s) (h2 : s ≤ b) (tx : List ZoneTrans)
    (hq : ∀ z ∈ tx, z.when ≤ a ∨ b < z.when) (offset start : Int) :
    (lookupFrom s offset start tx).1 = (lookupFrom a offset start tx).1 := by
  induction tx generalizing offset start with
  | nil => simp [lookupFrom]
  | cons z rest ih =>
    have hz := hq z (List.mem_cons_self _ _)
    have hrest : ∀ y ∈ rest, y.when ≤ a ∨ b < y.when :=
      fun y hy => hq y (List.mem_cons_of_mem _ hy)
    unfold lookupFrom
    by_cases hs : s < z.when
    · have ha : a < z.when := by omega
      simp [hs, ha]
    · have ha : ¬ a < z.when := by omega
      simp only [hs, ha, if_false]
      exact ih hrest z.offset z.when

theorem offsetAt_of_quiet (l : Location) (a b s : Int) (hq : l.Quiet a b) (h1 : a ≤ s)
    (h2 : s ≤ b) : l.offsetAt s = l.offsetAt a :=
  lookupFrom_quiet a b s h1 h2 l.tx hq l.first zoneAlpha

/-- The zone adjustment of `time.Date` subtracts the offset in force at its
argument or the offset in force that many seconds earlier. -/
theorem zoneAdjust_form (l : Location) (c : Int) :
    zoneAdjust l c = c - l.offsetAt c ∨ zoneAdjust l c = c - l.offsetAt (c - l.offsetAt c) := by
  unfold zoneAdjust Location.offsetAt
  generalize l.lookup c = r
  obtain ⟨o, st, en⟩ := r
  simp only
  by_cases ho : o = 0
  · left
    simp [ho]
  · simp only [ne_eq, ho, not_false_eq_true, if_true]
    split
    · right; rfl
    · left; rfl

/-- The second of `SoD t` is the midnight of the day of `t` read as UTC, less one
of the offsets of `t.midnightOffsets`. -/
theorem SoD_sec_form (t : Time) :
    ∃ o ∈ t.midnightOffsets, (SoD t).sec = t.dayStartUTC - o := by
  rw [SoD_eq]
  rcases zoneAdjust_form t.loc t.dayStartUTC with h | h
  · exact ⟨_, List.mem_cons_self _ _, h⟩
  · exact ⟨_, List.mem_cons_of_mem _ (List.mem_cons_self _ _), h⟩

theorem OffsetRiseBounded_of_span (t u : Time) (hl : t.loc = u.loc)
    (h : t.loc.SpanWithinDay) (hd : t.abs / secondsPerDay < u.abs / secondsPerDay) :
    t.OffsetRiseBounded u := by
  have hmem : ∀ (v : Time), ∀ o ∈ v.midnightOffsets, o ∈ v.loc.offsets := by
    intro v o ho
    simp only [Time.midnightOffsets, List.mem_cons, List.mem_singleton, List.not_mem_nil,
      or_false] at ho
    rcases ho with rfl | rfl
    · exact offsetAt_mem _ _
    · exact offsetAt_mem _ _
  intro a ha b hb
  have := h a (by rw [hl]; exact hmem u a ha) b (hmem t b hb)
  omega

/-- Where the offsets rise by at most 24 hours a day, `SoD` is monotone in the
calendar day. -/
theorem SoD_sec_le_of_day_lt (t u : Time) (h : t.OffsetRiseBounded u) :
    (SoD t).sec ≤ (SoD u).sec := by
  obtain ⟨c1, -⟩ := consts_vals
  obtain ⟨o1, ho1, e1⟩ := SoD_sec_form t
  obtain ⟨o2, ho2, e2⟩ := SoD_sec_form u
  have hs := h o2 ho2 o1 ho1
  rw [e1, e2]
  unfold Time.dayStartUTC
  rw [c1] at hs ⊢
  omega

theorem After_self (t : Time) : t.After t = false := by
  simp [Time.After]

/-- `SoD` and `EoD` keep the order of calendar days. -/
theorem SoD_EoD_monotone_of_day_lt (t u : Time) (h : t.OffsetRiseBounded u) :
    (SoD t).After (SoD u) = false ∧
    ((SoD t).InRange → (SoD u).InRange → (EoD t).After (EoD u) = false) := by
  have key := SoD_sec_le_of_day_lt t u h
  constructor
  · simp only [Time.After, SoD_nsec, Bool.or_eq_false_iff, Bool.and_eq_false_iff,
      decide_eq_false_iff_not]
    constructor
    · omega
    · right; omega
  · intro r1 r2
    have a1 := addSec_clamp (SoD t).sec 86399 r1.1 r1.2 (by omega) (by norm_num)
    have a2 := addSec_clamp (SoD u).sec 86399 r2.1 r2.2 (by omega) (by norm_num)
    rw [EoD_mk, EoD_mk]
    simp only [Time.After, Bool.or_eq_false_iff, Bool.and_eq_false_iff,
      decide_eq_false_iff_not]
    rw [a1, a2]
    constructor
    · split_ifs <;> omega
    · right; omega

/-! ## Claims C19 and C20 -/

set_option maxRecDepth 8000

/-- C19 on the code, at noon of 2022-03-13 in New York (a 23-hour day) and at
noon of 2018-11-04 in Sao Paulo (a day without midnight): `EoD (EoD t)` and
`SoD (EoD t)` fall on the day after `t`, and `SoD (SoD t)` and `EoD (SoD t)` on
the day before. -/
theorem C19_idempotence_fails_on_short_days :
    (EoD nySpringNoon).civil = (2022, 3, 14, 0, 59, 59, 999999999) ∧
    (EoD (EoD nySpringNoon)).civil = (2022, 3, 14, 23, 59, 59, 999999999) ∧
    EoD (EoD nySpringNoon) ≠ EoD nySpringNoon ∧
    (SoD nySpringNoon).civil = (2022, 3, 13, 0, 0, 0, 0) ∧
    (SoD (EoD nySpringNoon)).civil = (2022, 3, 14, 0, 0, 0, 0) ∧
    SoD (EoD nySpringNoon) ≠ SoD nySpringNoon ∧
    (SoD spNoon).civil = (2018, 11, 3, 23, 0, 0, 0) ∧
    (SoD (SoD spNoon)).civil = (2018, 11, 3, 0, 0, 0, 0) ∧
    SoD (SoD spNoon) ≠ SoD spNoon ∧
    EoD (SoD spNoon) ≠ EoD spNoon :=
  ⟨by decide, by decide, by decide, by decide, by decide, by decide, by decide, by decide,
   by decide, by decide⟩

/-- C20 as stated fails: in St. John's the clocks went back from 00:01 of
2010-11-07 to 23:01 of 2010-11-06, so the instant 2010-11-07 00:00:30 is before
the instant 2010-11-06 23:01:30 of the same location, while its `SoD` and its
`EoD` are a day after those of the later instant. -/
theorem C20_counterexample :
    sjBefore.loc = sjAfter.loc ∧
    sjBefore.civil = (2010, 11, 7, 0, 0, 30, 0) ∧
    sjAfter.civil = (2010, 11, 6, 23, 1, 30, 0) ∧
    sjBefore.After sjAfter = false ∧
    (SoD sjBefore).civil = (2010, 11, 7, 0, 0, 0, 0) ∧
    (SoD sjAfter).civil = (2010, 11, 6, 0, 0, 0, 0) ∧
    (SoD sjBefore).After (SoD sjAfter) = true ∧
    (EoD sjBefore).After (EoD sjAfter) = true :=
  ⟨by decide, by decide, by decide, by decide, by decide, by decide, by decide, by decide⟩

/-- C20 amended, for two instants `t1` and `t2` of one location, with or without
zone transitions.  Two instants of the same calendar day have the same `SoD` and
the same `EoD`.  When the calendar day of `t1` is before that of `t2`, and from
the one midnight to the other the offsets rise by at most 24 hours for each day
in between, `SoD t1` is not after `SoD t2` and, both being instants Go can hold,
`EoD t1` is not after `EoD t2`.  The condition on the offsets holds in every
location whose offsets lie within 24 hours of each other.  The calendar day of
`t1` is not after that of `t2` whenever `t1` is not after `t2` and the offset at
`t2` is not below the offset at `t1`; the two offsets are equal when no
transition takes effect after `t1` and up to `t2`.  So monotonicity fails only
where the later instant falls on an earlier calendar day. -/
theorem C20_SoD_EoD_monotone (t1 t2 : Time) (hl : t1.loc = t2.loc) :
    (t1.abs / secondsPerDay = t2.abs / secondsPerDay →
      (SoD t1 = SoD t2 ∧ EoD t1 = EoD t2) ∧
      (SoD t1).After (SoD t2) = false ∧ (EoD t1).After (EoD t2) = false) ∧
    (t1.abs / secondsPerDay < t2.abs / secondsPerDay → t1.OffsetRiseBounded t2 →
      (SoD t1).After (SoD t2) = false ∧
      ((SoD t1).InRange → (SoD t2).InRange → (EoD t1).After (EoD t2) = false)) ∧
    (t1.loc.SpanWithinDay → t1.abs / secondsPerDay < t2.abs / secondsPerDay →
      t1.OffsetRiseBounded t2) ∧
    (t1.After t2 = false → t1.loc.offsetAt t1.sec ≤ t1.loc.offsetAt t2.sec →
      t1.abs / secondsPerDay ≤ t2.abs / secondsPerDay) ∧
    (t1.After t2 = false → t1.loc.Quiet t1.sec t2.sec →
      t1.loc.offsetAt t1.sec = t1.loc.offsetAt t2.sec) := by
  obtain ⟨c1, -⟩ := consts_vals
  have hsec : t1.After t2 = false → t1.sec ≤ t2.sec := by
    intro hle
    simp only [Time.After, Bool.or_eq_false_iff, decide_eq_false_iff_not] at hle
    omega
  refine ⟨fun hd => ⟨⟨SoD_congr t1 t2 hl hd, EoD_congr t1 t2 hl hd⟩, ?_, ?_⟩,
    fun _ h => SoD_EoD_monotone_of_day_lt t1 t2 h,
    fun h hd => OffsetRiseBounded_of_span t1 t2 hl h hd, ?_, ?_⟩
  · rw [SoD_congr t1 t2 hl hd]
    exact After_self _
  · rw [EoD_congr t1 t2 hl hd]
    exact After_self _
  · intro hle ho
    have hs := hsec hle
    have e1 : t1.abs = t1.sec + t1.loc.offsetAt t1.sec + unixToInternal := rfl
    have e2 : t2.abs = t2.sec + t1.loc.offsetAt t2.sec + unixToInternal := by rw [hl]; rfl
    rw [e1, e2, c1]
    omega
  · intro hle hq
    exact (offsetAt_of_quiet t1.loc t1.sec t2.sec t2.sec hq (hsec hle) (le_refl _)).symm

/-- Witness for the amended C20: the last second of daylight time, 01:59:59 of
2022-11-06 in New York, and the second after it, which reads 01:00:00 of the same
day; and noon of 2022-03-13 with 23:30 of 2022-11-06 in New York, two days that
are not 24 hours long. -/
theorem C20_SoD_EoD_monotone_witness :
    nyBeforeBack.loc = nyAfterBack.loc ∧ nyBeforeBack.After nyAfterBack = false ∧
    nyBeforeBack.civil = (2022, 11, 6, 1, 59, 59, 0) ∧
    nyAfterBack.civil = (2022, 11, 6, 1, 0, 0, 0) ∧
    (SoD nyBeforeBack).After (SoD nyAfterBack) = false ∧
    (EoD nyBeforeBack).After (EoD nyAfterBack) = false ∧
    nySpringNoon.After nyAutumnLate = false ∧
    nySpringNoon.OffsetRiseBounded nyAutumnLate ∧
    (SoD nySpringNoon).After (SoD nyAutumnLate) = false ∧
    (EoD nySpringNoon).After (EoD nyAutumnLate) = false :=
  ⟨rfl, by decide, by decide, by decide,
   ((C20_SoD_EoD_monotone nyBeforeBack nyAfterBack rfl).1 (by decide)).2.1,
   ((C20_SoD_EoD_monotone nyBeforeBack nyAfterBack rfl).1 (by decide)).2.2,
   by decide,
   (C20_SoD_EoD_monotone nySpringNoon nyAutumnLate rfl).2.2.1 (by decide) (by decide),
   ((C20_SoD_EoD_monotone nySpringNoon nyAutumnLate rfl).2.1 (by decide) (by decide)).1,
   ((C20_SoD_EoD_monotone nySpringNoon nyAutumnLate rfl).2.1 (by decide) (by decide)).2
     (by decide) (by decide)⟩

/-! ## Lemmas on weeks for C15 -/

/-- In every location, `n` calendar days later is `time.Date` at the same clock
reading on the day `n` days later. -/
theorem AddDate_days (t : Time) (n : Int) (hn0 : 0 ≤ t.nsec) (hn1 : t.nsec < 1000000000) :
    t.AddDate 0 0 n = ⟨zoneAdjust t.loc (t.readingUTC n), t.nsec, t.loc⟩ := by
  obtain ⟨c1, -⟩ := consts_vals
  obtain ⟨m1, m12, -, hsum⟩ := absDate_inv t.abs
  obtain ⟨hh, hmi, hs, hclock⟩ := clock_of_abs t
  unfold Time.AddDate
  simp only [add_zero, Time.Location]
  rw [Date_of_range _ _ _ _ _ _ _ _ (show 1 ≤ t.Month ∧ t.Month ≤ 12 from ⟨m1, m12⟩) hh hmi hs
      ⟨hn0, hn1⟩, hclock]
  unfold Time.Year Time.Month Time.Day
  have key : (daysSinceEpoch (absDate t.abs).1 + daysBeforeAt ((absDate t.abs).2.1 - 1)
        + (if isLeap (absDate t.abs).1 = true ∧ (absDate t.abs).2.1 ≥ 3 then 1 else 0)
        + ((absDate t.abs).2.2.1 + n - 1)) = t.abs / secondsPerDay + n := by omega
  rw [key]
  have e : (t.abs / secondsPerDay + n) * secondsPerDay + t.abs % secondsPerDay - unixToInternal
      = t.readingUTC n := by
    unfold Time.readingUTC Time.midnightUTC
    ring
  rw [e]

/-- Without transitions, `n` calendar days later at the same clock reading is
`n` times 86400 seconds later. -/
theorem AddDate_days_of_no_transitions (t : Time) (n : Int) (h : t.loc.tx = [])
    (hn0 : 0 ≤ t.nsec) (hn1 : t.nsec < 1000000000) :
    t.AddDate 0 0 n = ⟨t.sec + n * 86400, t.nsec, t.loc⟩ := by
  obtain ⟨c1, -⟩ := consts_vals
  have ha := abs_of_no_transitions t h
  rw [AddDate_days t n hn0 hn1, zoneAdjust_of_no_transitions _ h]
  unfold Time.readingUTC Time.midnightUTC
  simp only [Time.mk.injEq, and_true]
  rw [ha, c1]
  omega

/-- The weekday is the day number, counted from a Monday, modulo 7. -/
theorem Weekday_eq (t : Time) : t.Weekday = (t.abs / secondsPerDay + 1) % 7 := by
  obtain ⟨c1, -⟩ := consts_vals
  unfold Time.Weekday
  rw [c1]
  omega

theorem Weekday_range (t : Time) : 0 ≤ t.Weekday ∧ t.Weekday ≤ 6 := by
  rw [Weekday_eq]
  omega

/-- The day offset of `WeekStartOn` lies in 0..6 for a weekday anchor. -/
theorem weekOffset_range (t : Time) (w : Int) (h0 : 0 ≤ w) (h6 : w ≤ 6) :
    weekOffset w t = (t.Weekday - w + 7) % 7 ∧ 0 ≤ weekOffset w t ∧ weekOffset w t ≤ 6 := by
  obtain ⟨r0, r6⟩ := Weekday_range t
  have e : weekOffset w t = (t.Weekday - w + 7) % 7 :=
    Int.tmod_eq_emod (by omega) (by omega)
  rw [e]
  omega

/-- Where the reading `c` is plain, the instant that `time.Date` builds for it
reads `c`. -/
theorem abs_of_plain (l : Location) (c ns : Int) (h : l.PlainAt c) :
    (⟨zoneAdjust l c, ns, l⟩ : Time).abs = c + unixToInternal := by
  have h2 : (l.lookup (c - l.offsetAt c)).1 = l.offsetAt c := h
  rw [zoneAdjust_of_plain l c h]
  show c - l.offsetAt c + (l.lookup (c - l.offsetAt c)).1 + unixToInternal = c + unixToInternal
  rw [h2]
  omega

/-- Where the clock reading of `t` exists on the day of the week start, with the
offset `time.Date` finds first, `WeekStartOn` is `time.Date` at the midnight of
that day. -/
theorem WeekStartOn_of_plain (w : Int) (t : Time) (hn0 : 0 ≤ t.nsec)
    (hn1 : t.nsec < 1000000000)
    (hp : t.loc.PlainAt (t.readingUTC (-(weekOffset w t)))) :
    WeekStartOn w t = ⟨zoneAdjust t.loc (t.midnightUTC (-(weekOffset w t))), 0, t.loc⟩ := by
  obtain ⟨c1, -⟩ := consts_vals
  show SoD (t.AddDate 0 0 (-(weekOffset w t))) = _
  generalize weekOffset w t = k at hp ⊢
  rw [AddDate_days t (-k) hn0 hn1, SoD_eq]
  have ha := abs_of_plain t.loc (t.readingUTC (-k)) t.nsec hp
  have e : (⟨zoneAdjust t.loc (t.readingUTC (-k)), t.nsec, t.loc⟩ : Time).dayStartUTC
      = t.midnightUTC (-k) := by
    unfold Time.dayStartUTC
    rw [ha]
    unfold Time.readingUTC Time.midnightUTC
    rw [c1]
    omega
  rw [e]

/-- In a window without transitions that reaches 24 hours to either side, every
reading is plain and `time.Date` subtracts the one offset of the window. -/
theorem plain_of_quiet (l : Location) (a b c : Int) (hq : l.Quiet a b)
    (ho : -86400 ≤ l.offsetAt a ∧ l.offsetAt a ≤ 86400) (h1 : a + 86400 ≤ c)
    (h2 : c + 86400 ≤ b) :
    l.offsetAt c = l.offsetAt a ∧ l.PlainAt c ∧ zoneAdjust l c = c - l.offsetAt a := by
  have e1 : l.offsetAt c = l.offsetAt a :=
    offsetAt_of_quiet l a b c hq (by omega) (by omega)
  have e2 : l.offsetAt (c - l.offsetAt a) = l.offsetAt a :=
    offsetAt_of_quiet l a b _ hq (by omega) (by omega)
  have hp : l.PlainAt c := by
    unfold Location.PlainAt
    rw [e1, e2]
  refine ⟨e1, hp, ?_⟩
  rw [zoneAdjust_of_plain l c hp, e1]

/-- In a week without transitions, `WeekStartOn` and `WeekEndOn` in closed form:
the first midnight of the week and the last nanosecond of its seventh day, at
the one offset of the week, which is also the offset at `t`. -/
theorem week_of_quiet (w : Int) (t : Time) (hw0 : 0 ≤ w) (hw6 : w ≤ 6) (hn0 : 0 ≤ t.nsec)
    (hn1 : t.nsec < 1000000000) (hq : t.QuietWeek w) :
    t.loc.offsetAt t.sec = t.loc.offsetAt (t.midnightUTC (-(weekOffset w t)) - 86400) ∧
    t.loc.PlainAt (t.readingUTC (-(weekOffset w t))) ∧
    t.loc.PlainAt (t.midnightUTC (-(weekOffset w t))) ∧
    WeekStartOn w t
      = ⟨t.midnightUTC (-(weekOffset w t))
          - t.loc.offsetAt (t.midnightUTC (-(weekOffset w t)) - 86400), 0, t.loc⟩ ∧
    WeekEndOn w t
      = ⟨t.midnightUTC (-(weekOffset w t)) + 6 * 86400 + 86399
          - t.loc.offsetAt (t.midnightUTC (-(weekOffset w t)) - 86400), 999999999, t.loc⟩ ∧
    (∀ c, t.midnightUTC (-(weekOffset w t)) ≤ c →
      c ≤ t.midnightUTC (-(weekOffset w t)) + 7 * 86400 →
      zoneAdjust t.loc c
        = c - t.loc.offsetAt (t.midnightUTC (-(weekOffset w t)) - 86400)) := by
  obtain ⟨c1, -, -, -, -, -, cu⟩ := consts_vals
  obtain ⟨-, hk0, hk6⟩ := weekOffset_range t w hw0 hw6
  obtain ⟨hQ, ⟨ho0, ho1⟩, hr0, hr1⟩ := hq
  have hws := WeekStartOn_of_plain w t hn0 hn1
  unfold WeekEndOn
  generalize WeekStartOn w t = WS at hws ⊢
  generalize weekOffset w t = k at hk0 hk6 hQ hr0 hr1 hws ⊢
  have hWv : t.midnightUTC (-k) = (t.abs / 86400 - k) * 86400 - unixToInternal := by
    unfold Time.midnightUTC
    rw [c1]
    ring
  have hRv : t.readingUTC (-k) = t.midnightUTC (-k) + t.abs % 86400 := by
    unfold Time.readingUTC
    rw [c1]
  generalize t.midnightUTC (-k) = W at hQ hr0 hr1 hws hWv hRv ⊢
  have habs : t.abs = t.sec + t.loc.offsetAt t.sec + unixToInternal := rfl
  have hts : W - 86400 ≤ t.sec ∧ t.sec ≤ W + 8 * 86400 := by omega
  have hot : t.loc.offsetAt t.sec = t.loc.offsetAt (W - 86400) :=
    offsetAt_of_quiet t.loc _ _ _ hQ hts.1 hts.2
  rw [hot] at ho0 ho1
  have hwin : ∀ c, W ≤ c → c ≤ W + 7 * 86400 →
      t.loc.offsetAt c = t.loc.offsetAt (W - 86400) ∧ t.loc.PlainAt c ∧
      zoneAdjust t.loc c = c - t.loc.offsetAt (W - 86400) :=
    fun c h1 h2 => plain_of_quiet t.loc _ _ c hQ ⟨ho0, ho1⟩ (by omega) (by omega)
  have hp1 : t.loc.PlainAt (t.readingUTC (-k)) := by
    rw [hRv]
    exact (hwin _ (by omega) (by omega)).2.1
  have hws2 := hws hp1
  rw [(hwin W (by omega) (by omega)).2.2] at hws2
  generalize t.loc.offsetAt (W - 86400) = o at ho0 ho1 hwin hws2 hot ⊢
  have hoff : ∀ s, W - 86400 ≤ s → s ≤ W + 8 * 86400 → t.loc.offsetAt s = o := by
    intro s h1 h2
    have e1 := offsetAt_of_quiet t.loc _ _ s hQ h1 h2
    have e2 := offsetAt_of_quiet t.loc _ _ t.sec hQ hts.1 hts.2
    rw [e1, ← e2, hot]
  refine ⟨hot, hp1, (hwin W (by omega) (by omega)).2.1, hws2, ?_,
    fun c h1 h2 => (hwin c h1 h2).2.2⟩
  -- the end of the week
  rw [hws2]
  have hA : (⟨W - o, 0, t.loc⟩ : Time).abs = W + unixToInternal := by
    show W - o + t.loc.offsetAt (W - o) + unixToInternal = _
    rw [hoff _ (by omega) (by omega)]
    omega
  have hR6 : (⟨W - o, 0, t.loc⟩ : Time).readingUTC 6 = W + 6 * 86400 := by
    unfold Time.readingUTC Time.midnightUTC
    rw [hA, c1]
    omega
  rw [AddDate_days _ 6 (by show (0 : Int) ≤ 0; omega) (by show (0 : Int) < 1000000000; omega),
    hR6]
  simp only
  rw [(hwin _ (by omega) (by omega)).2.2]
  have hB : (⟨W + 6 * 86400 - o, 0, t.loc⟩ : Time).abs = W + 6 * 86400 + unixToInternal := by
    show W + 6 * 86400 - o + t.loc.offsetAt (W + 6 * 86400 - o) + unixToInternal = _
    rw [hoff _ (by omega) (by omega)]
    omega
  have hD : (⟨W + 6 * 86400 - o, 0, t.loc⟩ : Time).dayStartUTC = W + 6 * 86400 := by
    unfold Time.dayStartUTC
    rw [hB, c1]
    omega
  have hS : SoD ⟨W + 6 * 86400 - o, 0, t.loc⟩ = ⟨W + 6 * 86400 - o, 0, t.loc⟩ := by
    rw [SoD_eq, hD]
    simp only
    rw [(hwin _ (by omega) (by omega)).2.2]
  rw [EoD_mk, hS]
  simp only
  rw [addSec_of_fits _ 86399 (by omega) (by omega) (by norm_num) (by omega)]
  simp only [Time.mk.injEq, and_true]
  omega

/-- The value that `TestWeek` expects of `WeekStartOn(time.Monday)`: `time.Date`
at the midnight of the day `weekday - 1` days before the day of `now`. -/
theorem weekStartExpected_eq (t : Time) :
    weekStartExpected t = ⟨zoneAdjust t.loc (t.midnightUTC (-(t.Weekday - 1))), 0, t.loc⟩ := by
  obtain ⟨m1, m12, -, hsum⟩ := absDate_inv t.abs
  unfold weekStartExpected Time.Location
  rw [Date_midnight _ _ _ _ (show 1 ≤ t.Month from m1) (show t.Month ≤ 12 from m12)]
  unfold Time.Year Time.Month Time.Day Time.midnightUTC
  have key : (daysSinceEpoch (absDate t.abs).1 + daysBeforeAt ((absDate t.abs).2.1 - 1)
        + (if isLeap (absDate t.abs).1 = true ∧ (absDate t.abs).2.1 ≥ 3 then 1 else 0)
        + ((absDate t.abs).2.2.1 - t.Weekday + 1 - 1))
      = t.abs / secondsPerDay + -(t.Weekday - 1) := by omega
  rw [key]

/-- The value that `TestWeek` expects of `WeekEndOn(time.Monday)`: `time.Date` at
23:59:59.999999999 of the day `7 - weekday` days after the day of `now`. -/
theorem weekEndExpected_eq (t : Time) :
    weekEndExpected t
      = ⟨zoneAdjust t.loc (t.midnightUTC (-(t.Weekday - 1)) + 6 * 86400 + 86399), 999999999,
          t.loc⟩ := by
  obtain ⟨c1, c2, c3, -⟩ := consts_vals
  obtain ⟨m1, m12, -, hsum⟩ := absDate_inv t.abs
  unfold weekEndExpected Time.Location
  rw [Date_of_range _ _ _ _ _ _ _ _ (show 1 ≤ t.Month ∧ t.Month ≤ 12 from ⟨m1, m12⟩)
    (by omega) (by omega) (by omega) (by omega)]
  unfold Time.Year Time.Month Time.Day Time.midnightUTC
  have key : (daysSinceEpoch (absDate t.abs).1 + daysBeforeAt ((absDate t.abs).2.1 - 1)
        + (if isLeap (absDate t.abs).1 = true ∧ (absDate t.abs).2.1 ≥ 3 then 1 else 0)
        + ((absDate t.abs).2.2.1 - t.Weekday + 7 - 1))
      = t.abs / secondsPerDay + -(t.Weekday - 1) + 6 := by omega
  rw [key]
  simp only [Time.mk.injEq, and_true]
  congr 1
  rw [c1, c2, c3]
  omega

/-! ## Claim C15 -/

/-- C15 as stated fails: noon of 2018-11-06 in Sao Paulo is a Tuesday, and the
Sunday before it is 2018-11-04, whose midnight was skipped when the clocks went
from 00:00 to 01:00.  No instant of the location reads 2018-11-04 00:00:00, and
`WeekStartOn` with Sunday as anchor reads 2018-11-03 23:00:00, a Saturday at
hour 23. -/
theorem C15_counterexample :
    spTuesday.civil = (2018, 11, 6, 12, 0, 0, 0) ∧
    spTuesday.Weekday = 2 ∧
    weekOffset 0 spTuesday = 2 ∧
    (WeekStartOn 0 spTuesday).civil = (2018, 11, 3, 23, 0, 0, 0) ∧
    (WeekStartOn 0 spTuesday).Weekday = 6 ∧
    ¬ ((WeekStartOn 0 spTuesday).Weekday = 0 ∧ (WeekStartOn 0 spTuesday).Hour = 0) ∧
    ¬ saoPaulo2018.PlainAt (spTuesday.midnightUTC (-(weekOffset 0 spTuesday))) ∧
    (Date 2018 11 4 0 0 0 0 UTC).civil = (2018, 11, 4, 0, 0, 0, 0) ∧
    (∀ s ns : Int,
      (⟨s, ns, saoPaulo2018⟩ : Time).abs ≠ (Date 2018 11 4 0 0 0 0 UTC).abs) := by
  refine ⟨by decide, by decide, by decide, by decide, by decide, by decide, by decide,
    by decide, ?_⟩
  intro s ns
  have e : (Date 2018 11 4 0 0 0 0 UTC).abs = 63676886400 := by decide
  have cu : unixToInternal = 62135596800 := by decide
  rw [e]
  show s + (lookupFrom s (-10800) zoneAlpha
    [⟨1541300400, -7200⟩, ⟨1550368800, -10800⟩]).1 + unixToInternal ≠ 63676886400
  rw [cu]
  simp only [lookupFrom]
  split_ifs <;> simp only <;> omega

/-- C15 amended, for every anchor weekday `w` in 0..6 and every instant `t`, in
locations with or without zone transitions.  The offset
`k = (weekday(t) - w + 7) mod 7` lies in 0..6, and the day `k` days before the
day of `t` is the most recent day on or before it whose weekday is `w`.
Whenever the clock reading of `t` and midnight both exist on that day (they are
plain in the location), `WeekStartOn w t` reads 00:00:00.000000000 on that day,
on weekday `w`, in the location of `t`, and it is not after `t` exactly when the
offset at `t` exceeds the offset at that midnight by no more than the clock time
from that midnight to `t`.  Whenever the week has no zone
transition (none from one day before its first midnight to eight days after
it), both readings are plain, `WeekStartOn w t` is not after `t`, `t` is not
after `WeekEndOn w t`, and for the anchor Monday and `t` not on a Sunday the two
functions give the values that `TestWeek` expects at `time.Now()`.  The two
dated examples of the tests hold.  On a Sunday the values that `TestWeek`
expects for the anchor Monday are seven days later than the week of the spec:
for 2024-01-07 11:02:10 UTC they are 2024-01-08 00:00:00 and 2024-01-14
23:59:59.999999999, the first of them after the instant. -/
theorem C15_WeekStartOn_spec (w : Int) (t : Time) (hw0 : 0 ≤ w) (hw6 : w ≤ 6)
    (hn0 : 0 ≤ t.nsec) (hn1 : t.nsec < 1000000000) :
    ((0 ≤ weekOffset w t ∧ weekOffset w t ≤ 6) ∧
      (t.abs / secondsPerDay - weekOffset w t + 1) % 7 = w ∧
      (∀ j : Int, 0 ≤ j → j < weekOffset w t → (t.abs / secondsPerDay - j + 1) % 7 ≠ w)) ∧
    (t.loc.PlainAt (t.readingUTC (-(weekOffset w t))) →
      t.loc.PlainAt (t.midnightUTC (-(weekOffset w t))) →
        (WeekStartOn w t).abs = (t.abs / secondsPerDay - weekOffset w t) * secondsPerDay ∧
        (WeekStartOn w t).Weekday = w ∧
        ((WeekStartOn w t).Hour = 0 ∧ (WeekStartOn w t).Minute = 0 ∧
          (WeekStartOn w t).Second = 0 ∧ (WeekStartOn w t).Nanosecond = 0) ∧
        (WeekStartOn w t).Location = t.Location ∧
        ((WeekStartOn w t).After t = false ↔
          t.loc.offsetAt t.sec - t.loc.offsetAt (t.midnightUTC (-(weekOffset w t)))
            ≤ weekOffset w t * 86400 + t.abs % secondsPerDay)) ∧
    (t.QuietWeek w →
      (t.loc.PlainAt (t.readingUTC (-(weekOffset w t))) ∧
        t.loc.PlainAt (t.midnightUTC (-(weekOffset w t)))) ∧
      (WeekStartOn w t).After t = false ∧
      t.After (WeekEndOn w t) = false ∧
      (w = 1 → t.Weekday ≠ 0 →
        WeekStartOn w t = weekStartExpected t ∧ WeekEndOn w t = weekEndExpected t)) ∧
    (WeekStartOn 0 (Date 2024 1 1 11 2 10 0 UTC) = Date 2023 12 31 0 0 0 0 UTC ∧
      WeekStartOn 1 (Date 2024 1 2 11 2 10 0 UTC) = Date 2024 1 1 0 0 0 0 UTC) ∧
    (sundayExample.Weekday = 0 ∧
      (WeekStartOn 1 sundayExample).civil = (2024, 1, 1, 0, 0, 0, 0) ∧
      (weekStartExpected sundayExample).civil = (2024, 1, 8, 0, 0, 0, 0) ∧
      (weekStartExpected sundayExample).After sundayExample = true ∧
      (WeekEndOn 1 sundayExample).civil = (2024, 1, 7, 23, 59, 59, 999999999) ∧
      (weekEndExpected sundayExample).civil = (2024, 1, 14, 23, 59, 59, 999999999)) := by
  obtain ⟨c1, c2, c3, -⟩ := consts_vals
  obtain ⟨hk, hk0, hk6⟩ := weekOffset_range t w hw0 hw6
  have hwd := Weekday_eq t
  refine ⟨⟨⟨hk0, hk6⟩, ?_, ?_⟩, ?_, ?_, ⟨by decide, by decide⟩,
    ⟨by decide, by decide, by decide, by decide, by decide, by decide⟩⟩
  · rw [c1] at hwd ⊢
    omega
  · intro j hj0 hj1
    rw [c1] at hwd ⊢
    omega
  · intro hp1 hp2
    have hs := WeekStartOn_of_plain w t hn0 hn1 hp1
    have habs : (WeekStartOn w t).abs
        = (t.abs / secondsPerDay - weekOffset w t) * secondsPerDay := by
      rw [hs, abs_of_plain _ _ _ hp2]
      unfold Time.midnightUTC
      ring
    refine ⟨habs, ?_, ⟨?_, ?_, ?_, ?_⟩, ?_, ?_⟩
    · rw [Weekday_eq, habs]
      rw [c1] at hwd ⊢
      omega
    · simp only [Time.Hour, habs, c1, c2]; omega
    · simp only [Time.Minute, habs, c1, c2, c3]; omega
    · simp only [Time.Second, habs, c1, c3]; omega
    · rw [hs]; rfl
    · rw [hs]; rfl
    · have hta : t.abs = t.sec + t.loc.offsetAt t.sec + unixToInternal := rfl
      have hWv : t.midnightUTC (-(weekOffset w t))
          = (t.abs / 86400 - weekOffset w t) * 86400 - unixToInternal := by
        unfold Time.midnightUTC
        rw [c1]
        ring
      rw [hs, zoneAdjust_of_plain _ _ hp2]
      simp only [Time.After, Bool.or_eq_false_iff, Bool.and_eq_false_iff,
        decide_eq_false_iff_not]
      rw [c1]
      constructor
      · intro h
        omega
      · intro h
        constructor
        · omega
        · right; omega
  · intro hq
    obtain ⟨hot, hp1, hp2, hs, he, hz⟩ := week_of_quiet w t hw0 hw6 hn0 hn1 hq
    have habs : t.abs = t.sec + t.loc.offsetAt t.sec + unixToInternal := rfl
    have hWv : t.midnightUTC (-(weekOffset w t))
        = (t.abs / 86400 - weekOffset w t) * 86400 - unixToInternal := by
      unfold Time.midnightUTC
      rw [c1]
      ring
    refine ⟨⟨hp1, hp2⟩, ?_, ?_, ?_⟩
    · rw [hs]
      simp only [Time.After, Bool.or_eq_false_iff, Bool.and_eq_false_iff,
        decide_eq_false_iff_not]
      constructor
      · omega
      · right; omega
    · rw [he]
      simp only [Time.After, Bool.or_eq_false_iff, Bool.and_eq_false_iff,
        decide_eq_false_iff_not]
      constructor
      · omega
      · right; omega
    · intro hw1 hsun
      have hko : weekOffset w t = t.Weekday - 1 := by
        obtain ⟨r0, r6⟩ := Weekday_range t
        rw [hk, hw1]
        omega
      rw [weekStartExpected_eq, weekEndExpected_eq, ← hko, hs, he,
        hz _ (by omega) (by omega), hz _ (by omega) (by omega)]
      simp only [Time.mk.injEq, and_true, true_and]

/-- Witness for the amended C15: noon of 2022-07-13 in New York, a Wednesday in a
week without zone transition, with Monday as anchor; the week runs from
2022-07-11 00:00:00 to 2022-07-17 23:59:59.999999999 and agrees with the values
that `TestWeek` expects. -/
theorem C15_WeekStartOn_spec_witness :
    nyJuly.Weekday = 3 ∧
    nyJuly.QuietWeek 1 ∧
    (WeekStartOn 1 nyJuly).civil = (2022, 7, 11, 0, 0, 0, 0) ∧
    (WeekEndOn 1 nyJuly).civil = (2022, 7, 17, 23, 59, 59, 999999999) ∧
    (WeekStartOn 1 nyJuly).Weekday = 1 ∧
    (WeekStartOn 1 nyJuly).After nyJuly = false ∧
    nyJuly.After (WeekEndOn 1 nyJuly) = false ∧
    (WeekStartOn 1 nyJuly = weekStartExpected nyJuly ∧
      WeekEndOn 1 nyJuly = weekEndExpected nyJuly) :=
  ⟨by decide, by decide, by decide, by decide,
   ((C15_WeekStartOn_spec 1 nyJuly (by decide) (by decide) (by decide) (by decide)).2.1
      (by decide) (by decide)).2.1,
   ((C15_WeekStartOn_spec 1 nyJuly (by decide) (by decide) (by decide) (by decide)).2.2.1
      (by decide)).2.1,
   ((C15_WeekStartOn_spec 1 nyJuly (by decide) (by decide) (by decide) (by decide)).2.2.1
      (by decide)).2.2.1,
   ((C15_WeekStartOn_spec 1 nyJuly (by decide) (by decide) (by decide) (by decide)).2.2.1
      (by decide)).2.2.2 rfl (by decide)⟩

/-! ## From a calendar date to its day number and back, for C16 -/

/-- The reverse of `cycles_bounds`: the cycle counts of a year number. -/
theorem year_cycles (y : Int) :
    ∃ n a m b : Int, (0 ≤ a ∧ a ≤ 3) ∧ (0 ≤ m ∧ m ≤ 24) ∧ (0 ≤ b ∧ b ≤ 3) ∧
      y = 400 * n + 100 * a + 4 * m + b + 1 := by
  refine ⟨(y - 1) / 400, (y - 1) % 400 / 100, (y - 1) % 100 / 4, (y - 1) % 4, ?_, ?_, ?_, ?_⟩
  all_goals omega

/-- The year and the day of the year are found again from the day number. -/
theorem yearOfDays_of_date (y yd : Int) (h0 : 0 ≤ yd)
    (h1 : yd < 365 + (if isLeap y = true then 1 else 0)) :
    yearOfDays (daysSinceEpoch y + yd) = (y, yd) := by
  obtain ⟨n, a, m, b, ha, hm, hb, rfl⟩ := year_cycles y
  have hleap := isLeap_cycles n a m b ha hm hb
  have hyd : yd ≤ 365 ∧ (yd = 365 → b = 3 ∧ (m ≠ 24 ∨ a = 3)) := by
    by_cases hl : isLeap (400 * n + 100 * a + 4 * m + b + 1) = true
    · rw [if_pos hl] at h1
      exact ⟨by omega, fun _ => hleap.mp hl⟩
    · rw [if_neg hl] at h1
      exact ⟨by omega, fun h365 => by omega⟩
  rw [daysSinceEpoch_cycles n a m b ha hm hb]
  obtain ⟨D, hD⟩ : ∃ D, D = 146097 * n + 36524 * a + 1461 * m + 365 * b + yd := ⟨_, rfl⟩
  rw [← hD]
  have b1 : 0 ≤ 365 * b + yd ∧ 365 * b + yd ≤ 1460 ∧ (b ≠ 3 → 365 * b + yd ≤ 1094) := by
    omega
  have b2 : 0 ≤ 1461 * m + 365 * b + yd ∧ 1461 * m + 365 * b + yd ≤ 36524 ∧
      (a ≠ 3 → 1461 * m + 365 * b + yd ≤ 36523) := by
    refine ⟨by omega, by omega, fun ha3 => ?_⟩
    by_cases h365 : yd = 365
    · have := hyd.2 h365
      omega
    · omega
  have e1 : D / 146097 = n := by omega
  have hR : D - 146097 * n = 36524 * a + (1461 * m + 365 * b + yd) := by omega
  obtain ⟨q, hq⟩ : ∃ q, q = (D - 146097 * n) / 36524 := ⟨_, rfl⟩
  rw [hR] at hq
  have hq2 : q = a ∨ (q = 4 ∧ a = 3) := by omega
  have e2 : q - q / 4 = a := by
    rcases hq2 with rfl | ⟨rfl, rfl⟩ <;> omega
  have hR2 : D - 146097 * n - 36524 * a = 1461 * m + (365 * b + yd) := by omega
  have e3 : (D - 146097 * n - 36524 * a) / 1461 = m := by
    rw [hR2]; omega
  have hR3 : D - 146097 * n - 36524 * a - 1461 * m = 365 * b + yd := by omega
  obtain ⟨r, hr⟩ : ∃ r, r = (D - 146097 * n - 36524 * a - 1461 * m) / 365 := ⟨_, rfl⟩
  have hr2 : r = b ∨ (r = 4 ∧ b = 3) := by
    rw [hR3] at hr; omega
  have e4 : r - r / 4 = b := by
    rcases hr2 with rfl | ⟨rfl, rfl⟩ <;> omega
  rw [← hR] at hq
  rw [yearOfDays_rel D n q m r e1.symm hq (by rw [e2, e3]) (by rw [e2]; exact hr), e2, e4]
  simp only [Prod.mk.injEq, true_and]
  omega

/-- The month estimate of `absDate` finds the month whose days contain `day`. -/
theorem monthEst_of_date (day m : Int) (hm1 : 1 ≤ m) (hm12 : m ≤ 12)
    (h0 : daysBeforeAt (m - 1) ≤ day) (h1 : day < daysBeforeAt m) :
    (if day ≥ daysBeforeAt (day / 31 + 1) then
        (day / 31 + 1 + 1, day - daysBeforeAt (day / 31 + 1) + 1)
      else (day / 31 + 1, day - daysBeforeAt (day / 31) + 1))
      = (m, day - daysBeforeAt (m - 1) + 1) := by
  obtain ⟨v0, v1, v2, v3, v4, v5, v6, v7, v8, v9, v10, v11, v12⟩ := daysBeforeAt_vals
  have hm : m = 1 ∨ m = 2 ∨ m = 3 ∨ m = 4 ∨ m = 5 ∨ m = 6 ∨ m = 7 ∨ m = 8 ∨ m = 9 ∨
      m = 10 ∨ m = 11 ∨ m = 12 := by omega
  rcases hm with rfl | rfl | rfl | rfl | rfl | rfl | rfl | rfl | rfl | rfl | rfl | rfl <;>
    norm_num [v0, v1, v2, v3, v4, v5, v6, v7, v8, v9, v10, v11, v12] at h0 h1 ⊢
  · have hq : day / 31 = 0 := by omega
    rw [hq]; norm_num [v0, v1]; omega
  · have hq : day / 31 = 1 := by omega
    rw [hq]; norm_num [v1, v2]; omega
  · have hq : day / 31 = 1 ∨ day / 31 = 2 := by omega
    rcases hq with hq | hq <;> rw [hq] <;> norm_num [v1, v2, v3] <;> omega
  · have hq : day / 31 = 2 ∨ day / 31 = 3 := by omega
    rcases hq with hq | hq <;> rw [hq] <;> norm_num [v2, v3, v4] <;> omega
  · have hq : day / 31 = 3 ∨ day / 31 = 4 := by omega
    rcases hq with hq | hq <;> rw [hq] <;> norm_num [v3, v4, v5] <;> omega
  · have hq : day / 31 = 4 ∨ day / 31 = 5 := by omega
    rcases hq with hq | hq <;> rw [hq] <;> norm_num [v4, v5, v6] <;> omega
  · have hq : day / 31 = 5 ∨ day / 31 = 6 := by omega
    rcases hq with hq | hq <;> rw [hq] <;> norm_num [v5, v6, v7] <;> omega
  · have hq : day / 31 = 6 ∨ day / 31 = 7 := by omega
    rcases hq with hq | hq <;> rw [hq] <;> norm_num [v6, v7, v8] <;> omega
  · have hq : day / 31 = 7 ∨ day / 31 = 8 := by omega
    rcases hq with hq | hq <;> rw [hq] <;> norm_num [v7, v8, v9] <;> omega
  · have hq : day / 31 = 8 ∨ day / 31 = 9 := by omega
    rcases hq with hq | hq <;> rw [hq] <;> norm_num [v8, v9, v10] <;> omega
  · have hq : day / 31 = 9 ∨ day / 31 = 10 := by omega
    rcases hq with hq | hq <;> rw [hq] <;> norm_num [v9, v10, v11] <;> omega
  · have hq : day / 31 = 10 ∨ day / 31 = 11 := by omega
    rcases hq with hq | hq <;> rw [hq] <;> norm_num [v10, v11, v12] <;> omega

theorem daysBeforeAt_ge_march (m : Int) (h3 : 3 ≤ m) (h12 : m ≤ 12) :
    59 ≤ daysBeforeAt (m - 1) := by
  obtain ⟨v0, v1, v2, v3, v4, v5, v6, v7, v8, v9, v10, v11, v12⟩ := daysBeforeAt_vals
  have hm : m = 3 ∨ m = 4 ∨ m = 5 ∨ m = 6 ∨ m = 7 ∨ m = 8 ∨ m = 9 ∨
      m = 10 ∨ m = 11 ∨ m = 12 := by omega
  rcases hm with rfl | rfl | rfl | rfl | rfl | rfl | rfl | rfl | rfl | rfl <;>
    norm_num [v2, v3, v4, v5, v6, v7, v8, v9, v10, v11]

/-- The month and the day of the month are found again from the day of the year. -/
theorem monthDay_of_date (leap : Bool) (m d : Int) (hm1 : 1 ≤ m) (hm12 : m ≤ 12)
    (hd1 : 1 ≤ d)
    (hd2 : d ≤ daysBeforeAt m - daysBeforeAt (m - 1) + (if leap = true ∧ m = 2 then 1 else 0)) :
    monthDay leap (daysBeforeAt (m - 1) + (if leap = true ∧ m ≥ 3 then 1 else 0) + (d - 1))
      = (m, d) := by
  obtain ⟨v0, v1, v2, -⟩ := daysBeforeAt_vals
  unfold monthDay
  by_cases hl : leap = true
  · by_cases h3 : m ≥ 3
    · have hge := daysBeforeAt_ge_march m h3 hm12
      have hn2 : ¬ (leap = true ∧ m = 2) := by omega
      rw [if_neg hn2] at hd2
      rw [if_pos (⟨hl, h3⟩ : leap = true ∧ m ≥ 3)]
      have c1 : ¬ (leap = true ∧ daysBeforeAt (m - 1) + 1 + (d - 1) = 31 + 29 - 1) := by omega
      have c2 : leap = true ∧ daysBeforeAt (m - 1) + 1 + (d - 1) > 31 + 29 - 1 :=
        ⟨hl, by omega⟩
      simp only [if_neg c1, if_pos c2]
      rw [monthEst_of_date _ m hm1 hm12 (by omega) (by omega)]
      simp only [Prod.mk.injEq, true_and]
      omega
    · have hn3 : ¬ (leap = true ∧ m ≥ 3) := fun hc => h3 hc.2
      rw [if_neg hn3]
      have hm : m = 1 ∨ m = 2 := by omega
      rcases hm with rfl | rfl
      · norm_num [v0, v1] at hd2 ⊢
        have c1 : ¬ (leap = true ∧ d - 1 = 59) := by omega
        have c2 : ¬ (leap = true ∧ 59 < d - 1) := by omega
        simp only [if_neg c1, if_neg c2]
        have e := monthEst_of_date (d - 1) 1 (by omega) (by omega)
          (by norm_num [v0]; omega) (by norm_num [v1]; omega)
        norm_num [v0] at e
        rw [e]
      · norm_num [v1, v2, hl] at hd2 ⊢
        by_cases h29 : d = 29
        · subst h29
          norm_num
        · have c1 : ¬ (31 + (d - 1) = 59) := by omega
          have c2 : ¬ (59 < 31 + (d - 1)) := by omega
          simp only [if_neg c1, if_neg c2]
          have e := monthEst_of_date (31 + (d - 1)) 2 (by omega) (by omega)
            (by norm_num [v1]; omega) (by norm_num [v2]; omega)
          norm_num [v1] at e
          rw [e]
  · have hn2 : ¬ (leap = true ∧ m = 2) := fun hc => hl hc.1
    have hn3 : ¬ (leap = true ∧ m ≥ 3) := fun hc => hl hc.1
    rw [if_neg hn2] at hd2
    rw [if_neg hn3]
    have c1 : ¬ (leap = true ∧ daysBeforeAt (m - 1) + 0 + (d - 1) = 31 + 29 - 1) :=
      fun hc => hl hc.1
    have c2 : ¬ (leap = true ∧ daysBeforeAt (m - 1) + 0 + (d - 1) > 31 + 29 - 1) :=
      fun hc => hl hc.1
    simp only [if_neg c1, if_neg c2]
    rw [monthEst_of_date _ m hm1 hm12 (by omega) (by omega)]
    simp only [Prod.mk.injEq, true_and]
    omega


theorem daysBeforeAt_bounds (m : Int) (h1 : 1 ≤ m) (h12 : m ≤ 12) :
    0 ≤ daysBeforeAt (m - 1) ∧ daysBeforeAt (m - 1) + 28 ≤ daysBeforeAt m ∧
    daysBeforeAt m ≤ 365 ∧ (m = 2 → daysBeforeAt m = 59) := by
  obtain ⟨v0, v1, v2, v3, v4, v5, v6, v7, v8, v9, v10, v11, v12⟩ := daysBeforeAt_vals
  have hm : m = 1 ∨ m = 2 ∨ m = 3 ∨ m = 4 ∨ m = 5 ∨ m = 6 ∨ m = 7 ∨ m = 8 ∨ m = 9 ∨
      m = 10 ∨ m = 11 ∨ m = 12 := by omega
  rcases hm with rfl | rfl | rfl | rfl | rfl | rfl | rfl | rfl | rfl | rfl | rfl | rfl <;>
    norm_num [v0, v1, v2, v3, v4, v5, v6, v7, v8, v9, v10, v11, v12]

/-- The month lengths of `misc.go` are the differences of the table of Go's
`time` package, with the leap day added to February. -/
theorem DaysInMonth_eq_table (y m : Int) (h1 : 1 ≤ m) (h12 : m ≤ 12) :
    DaysInMonth y m
      = daysBeforeAt m - daysBeforeAt (m - 1) + (if isLeap y = true ∧ m = 2 then 1 else 0) := by
  obtain ⟨v0, v1, v2, v3, v4, v5, v6, v7, v8, v9, v10, v11, v12⟩ := daysBeforeAt_vals
  have hleap : IsLeapYear y = isLeap y := rfl
  have hm : m = 1 ∨ m = 2 ∨ m = 3 ∨ m = 4 ∨ m = 5 ∨ m = 6 ∨ m = 7 ∨ m = 8 ∨ m = 9 ∨
      m = 10 ∨ m = 11 ∨ m = 12 := by omega
  rcases hm with rfl | rfl | rfl | rfl | rfl | rfl | rfl | rfl | rfl | rfl | rfl | rfl <;>
    simp only [DaysInMonth, hleap] <;>
    norm_num [v0, v1, v2, v3, v4, v5, v6, v7, v8, v9, v10, v11, v12]
  cases isLeap y <;> simp

/-- A valid calendar date and a second of the day are found again by `absDate`
from the wall-clock second they stand for. -/
theorem absDate_of_date (y m d s : Int) (hm1 : 1 ≤ m) (hm12 : m ≤ 12) (hd1 : 1 ≤ d)
    (hd2 : d ≤ DaysInMonth y m) (hs0 : 0 ≤ s) (hs1 : s < 86400) :
    absDate ((daysSinceEpoch y + daysBeforeAt (m - 1)
        + (if isLeap y = true ∧ m ≥ 3 then 1 else 0) + (d - 1)) * secondsPerDay + s)
      = (y, m, d, daysBeforeAt (m - 1) + (if isLeap y = true ∧ m ≥ 3 then 1 else 0) + (d - 1)) := by
  obtain ⟨c1, -⟩ := consts_vals
  obtain ⟨b0, b1, b2, b3⟩ := daysBeforeAt_bounds m hm1 hm12
  rw [DaysInMonth_eq_table y m hm1 hm12] at hd2
  obtain ⟨yd, hyd⟩ : ∃ yd, yd = daysBeforeAt (m - 1)
      + (if isLeap y = true ∧ m ≥ 3 then 1 else 0) + (d - 1) := ⟨_, rfl⟩
  have hdiv : ((daysSinceEpoch y + daysBeforeAt (m - 1)
        + (if isLeap y = true ∧ m ≥ 3 then 1 else 0) + (d - 1)) * secondsPerDay + s)
        / secondsPerDay = daysSinceEpoch y + yd := by
    rw [c1, hyd]; omega
  have hyd0 : 0 ≤ yd := by
    rw [hyd]; split_ifs <;> omega
  have hyd1 : yd < 365 + (if isLeap y = true then 1 else 0) := by
    rw [hyd]
    by_cases hl : isLeap y = true
    · simp only [hl, true_and, if_true] at hd2 ⊢
      split_ifs at hd2 ⊢ <;> omega
    · have n1 : ¬ (isLeap y = true ∧ m ≥ 3) := fun hc => hl hc.1
      have n2 : ¬ (isLeap y = true ∧ m = 2) := fun hc => hl hc.1
      rw [if_neg n2] at hd2
      rw [if_neg n1, if_neg hl]
      omega
  rw [absDate_eq, hdiv, yearOfDays_of_date y yd hyd0 hyd1]
  simp only
  rw [hyd, monthDay_of_date (isLeap y) m d hm1 hm12 hd1 hd2]


theorem PlainAt_of_no_transitions (l : Location) (h : l.tx = []) (c : Int) : l.PlainAt c := by
  simp [Location.PlainAt, Location.offsetAt, lookup_of_no_transitions _ h]

/-- Where the wall-clock reading exists with the offset found first, `time.Date`
of a valid date and clock reading reads back as that date and clock reading. -/
theorem Date_civil (y m d hh mi s ns : Int) (loc : Location) (hm1 : 1 ≤ m) (hm12 : m ≤ 12)
    (hd1 : 1 ≤ d) (hd2 : d ≤ DaysInMonth y m) (hh0 : 0 ≤ hh ∧ hh < 24)
    (hmi : 0 ≤ mi ∧ mi < 60) (hs : 0 ≤ s ∧ s < 60) (hn : 0 ≤ ns ∧ ns < 1000000000)
    (hp : loc.PlainAt (civilUnix y m d hh mi s)) :
    (Date y m d hh mi s ns loc).civil = (y, m, d, hh, mi, s, ns) ∧
    (Date y m d hh mi s ns loc).loc = loc := by
  obtain ⟨c1, c2, c3, -⟩ := consts_vals
  have hD : Date y m d hh mi s ns loc
      = ⟨civilUnix y m d hh mi s - loc.offsetAt (civilUnix y m d hh mi s), ns, loc⟩ := by
    rw [Date_of_range y m d hh mi s ns loc ⟨hm1, hm12⟩ hh0 hmi hs hn]
    show (⟨zoneAdjust loc (civilUnix y m d hh mi s), ns, loc⟩ : Time) = _
    rw [zoneAdjust_of_plain loc _ hp]
  have hp2 : (loc.lookup (civilUnix y m d hh mi s - loc.offsetAt (civilUnix y m d hh mi s))).1
      = loc.offsetAt (civilUnix y m d hh mi s) := hp
  have habs : (Date y m d hh mi s ns loc).abs
      = (daysSinceEpoch y + daysBeforeAt (m - 1)
          + (if isLeap y = true ∧ m ≥ 3 then 1 else 0) + (d - 1)) * secondsPerDay
        + (hh * 3600 + mi * 60 + s) := by
    rw [hD]
    show civilUnix y m d hh mi s - loc.offsetAt (civilUnix y m d hh mi s)
      + (loc.lookup (civilUnix y m d hh mi s - loc.offsetAt (civilUnix y m d hh mi s))).1
      + unixToInternal = _
    rw [hp2]
    unfold civilUnix
    rw [c2, c3]
    omega
  have hdate := absDate_of_date y m d (hh * 3600 + mi * 60 + s) hm1 hm12 hd1 hd2
    (by omega) (by omega)
  refine ⟨?_, by rw [hD]⟩
  unfold Time.civil Time.Year Time.Month Time.Day Time.Hour Time.Minute Time.Second
    Time.Nanosecond
  rw [habs, hdate]
  simp only [Prod.mk.injEq, true_and]
  rw [c1, c2, c3]
  refine ⟨?_, ?_, ?_, by rw [hD]⟩ <;> omega


/-! ## Claim C16 -/

/-- C16 as stated fails.  In Asuncion the first midnight of October 2017 was
skipped, and `MonthStart` of an instant of that month reads 2017-09-30 23:00:00.
On Kiritimati 31 December 1994 did not exist, and `MonthEnd` of an instant of
that month reads 1995-01-01 23:59:59.999999999. -/
theorem C16_counterexample :
    asuncionNoon.civil = (2017, 10, 15, 12, 0, 0, 0) ∧
    (MonthStart asuncionNoon).civil = (2017, 9, 30, 23, 0, 0, 0) ∧
    ¬ ((MonthStart asuncionNoon).Day = 1 ∧ (MonthStart asuncionNoon).Hour = 0) ∧
    kiritimatiNoon.civil = (1994, 12, 15, 12, 0, 0, 0) ∧
    (MonthEnd kiritimatiNoon).civil = (1995, 1, 1, 23, 59, 59, 999999999) ∧
    (MonthEnd kiritimatiNoon).Month ≠ kiritimatiNoon.Month :=
  ⟨by decide, by decide, by decide, by decide, by decide, by decide⟩

/-- C16 amended: for every instant `t`, `MonthEnd t` and `MonthStart t` have the
location of `t`; where the reading "last day of the month of `t`, 23:59:59"
exists in the location with the offset found first, `MonthEnd t` has the year
and month of `t`, day `DaysInMonth` of them and time 23:59:59.999999999; where
the reading "first day of the month of `t`, 00:00:00" so exists, `MonthStart t`
has the year and month of `t`, day 1 and time zero; both readings so exist in
every location without transitions; the two February examples hold. -/
theorem C16_MonthEnd_MonthStart (t : Time) :
    ((MonthEnd t).Location = t.Location ∧ (MonthStart t).Location = t.Location) ∧
    (t.loc.tx = [] →
      t.loc.PlainAt (civilUnix t.Year t.Month (DaysInMonth t.Year t.Month) 23 59 59) ∧
      t.loc.PlainAt (civilUnix t.Year t.Month 1 0 0 0)) ∧
    (t.loc.PlainAt (civilUnix t.Year t.Month (DaysInMonth t.Year t.Month) 23 59 59) →
      (MonthEnd t).civil
        = (t.Year, t.Month, DaysInMonth t.Year t.Month, 23, 59, 59, 999999999)) ∧
    (t.loc.PlainAt (civilUnix t.Year t.Month 1 0 0 0) →
      (MonthStart t).civil = (t.Year, t.Month, 1, 0, 0, 0, 0)) ∧
    MonthEnd (Date 2023 2 1 11 22 10 0 UTC) = Date 2023 2 28 23 59 59 999999999 UTC ∧
    MonthEnd (Date 2024 2 1 11 22 10 0 UTC) = Date 2024 2 29 23 59 59 999999999 UTC := by
  obtain ⟨m1, m12, -, -⟩ := absDate_inv t.abs
  have hm1 : 1 ≤ t.Month := m1
  have hm12 : t.Month ≤ 12 := m12
  obtain ⟨-, b1, -, -⟩ := daysBeforeAt_bounds t.Month hm1 hm12
  have hdim := DaysInMonth_eq_table t.Year t.Month hm1 hm12
  have hdim1 : 1 ≤ DaysInMonth t.Year t.Month := by
    rw [hdim]; split_ifs <;> omega
  refine ⟨⟨rfl, rfl⟩, ?_, ?_, ?_, by decide, by decide⟩
  · intro h
    exact ⟨PlainAt_of_no_transitions _ h _, PlainAt_of_no_transitions _ h _⟩
  · intro hp
    exact (Date_civil t.Year t.Month (DaysInMonth t.Year t.Month) 23 59 59 999999999 t.loc
      hm1 hm12 hdim1 (le_refl _) (by omega) (by omega) (by omega) (by omega) hp).1
  · intro hp
    exact (Date_civil t.Year t.Month 1 0 0 0 0 t.loc hm1 hm12 (le_refl _) hdim1
      (by omega) (by omega) (by omega) (by omega) hp).1

/-- Witness for the amended C16: 2024-02-01 11:22:10 UTC, whose month ends on
2024-02-29 23:59:59.999999999 UTC and starts on 2024-02-01 00:00:00 UTC. -/
theorem C16_MonthEnd_MonthStart_witness :
    febExample.civil = (2024, 2, 1, 11, 22, 10, 0) ∧
    DaysInMonth febExample.Year febExample.Month = 29 ∧
    (MonthEnd febExample).civil
      = (febExample.Year, febExample.Month, DaysInMonth febExample.Year febExample.Month,
          23, 59, 59, 999999999) ∧
    (MonthStart febExample).civil = (febExample.Year, febExample.Month, 1, 0, 0, 0, 0) :=
  ⟨by decide, by decide,
   (C16_MonthEnd_MonthStart febExample).2.2.1
     (((C16_MonthEnd_MonthStart febExample).2.1 rfl).1),
   (C16_MonthEnd_MonthStart febExample).2.2.2.1
     (((C16_MonthEnd_MonthStart febExample).2.1 rfl).2)⟩

end Temporal
